import Mathlib

set_option maxHeartbeats 1000000

/-!
Shallow embedding of the cetkaik naive-representation core: the dual
coordinate system (absolute and relative), the piece model, the two board
representations (sparse map-backed and dense array-backed), fields with
hand pools, the perspective transform, and the move-application protocol.

Conventions of the embedding:
* The sparse absolute board (a hash map from coordinate to piece) is
  modelled as a total function `Coord → Option Piece`; `remove` and
  `insert` become pointwise function updates.
* The dense relative board (a 9×9 array of `Option<Piece>`) is modelled
  as `Fin 9 → Fin 9 → Option Piece`.  Relative coordinates in the source
  are raw `[usize; 2]` pairs, so an operation that indexes the array is
  modelled with an outer `Option`: `none` stands for the index-out-of-range
  panic of the source.
* `i32::try_from(...).unwrap()` is modelled by `toI32`, whose `none`
  result stands for the conversion panic.
* Fallible operations returning `Result<_, &str>` are modelled with
  `Except String _`, keeping the exact error strings of the source.
-/

inductive Color where
  | Kok1
  | Huok2
  deriving DecidableEq, Fintype

inductive Profession where
  | Nuak1
  | Kauk2
  | Gua2
  | Kaun1
  | Dau2
  | Maun1
  | Kua2
  | Tuk2
  | Uai1
  | Io
  deriving DecidableEq, Fintype

structure ColorAndProf where
  color : Color
  prof : Profession
  deriving DecidableEq, Fintype

inductive AbsoluteSide where
  | ASide
  | IASide
  deriving DecidableEq, Fintype

/-- Models `Iterator::position`: index of the first element satisfying the
predicate. -/
def position {α : Type} (p : α → Bool) : List α → Option Nat
  | [] => none
  | x :: t => if p x then some 0 else (position p t).map (fun n => n + 1)

namespace relative

inductive Side where
  | Upward
  | Downward
  deriving DecidableEq, Fintype

/-- Models `std::ops::Not for Side`. -/
def Side.not : Side → Side
  | Side.Upward => Side.Downward
  | Side.Downward => Side.Upward

structure NonTam2PieceUpward where
  color : Color
  prof : Profession
  deriving DecidableEq, Fintype

structure NonTam2PieceDownward where
  color : Color
  prof : Profession
  deriving DecidableEq, Fintype

inductive Piece where
  | Tam2
  | NonTam2Piece (color : Color) (prof : Profession) (side : Side)
  deriving DecidableEq, Fintype

def Piece.is_tam2 : Piece → Bool
  | Piece.Tam2 => true
  | Piece.NonTam2Piece _ _ _ => false

/-- Relative coordinates are raw `[usize; 2]` pairs in the source. -/
abbrev Coord := Nat × Nat

/-- Models `rotate_coord`; note the unchecked `8 - _` of the source is
only ever applied to in-range coordinates by the source itself. -/
def rotate_coord (c : Coord) : Coord := (8 - c.1, 8 - c.2)

def is_water (rc : Coord) : Bool :=
  (rc.1 == 4 && rc.2 == 2) || (rc.1 == 4 && rc.2 == 3) || (rc.1 == 4 && rc.2 == 4)
    || (rc.1 == 4 && rc.2 == 5) || (rc.1 == 4 && rc.2 == 6) || (rc.1 == 2 && rc.2 == 4)
    || (rc.1 == 3 && rc.2 == 4) || (rc.1 == 5 && rc.2 == 4) || (rc.1 == 6 && rc.2 == 4)

/-- The dense 9×9 array of optional pieces. -/
abbrev Board := Fin 9 → Fin 9 → Option Piece

structure Field where
  current_board : Board
  hop1zuo1of_upward : List NonTam2PieceUpward
  hop1zuo1of_downward : List NonTam2PieceDownward

instance : DecidableEq Field := fun a b =>
  decidable_of_iff
    (a.current_board = b.current_board ∧ a.hop1zuo1of_upward = b.hop1zuo1of_upward ∧
      a.hop1zuo1of_downward = b.hop1zuo1of_downward)
    (by cases a; cases b; simp)

/-- Models `i32::try_from(n).unwrap()` on a usize: `none` is the panic. -/
def toI32 (n : Nat) : Option Int :=
  if n < 2147483648 then some (n : Int) else none

/-- Models `relative::distance`.  The source unwraps `i32::try_from`, so a
coordinate not fitting in `i32` is a panic, modelled by `none`. -/
def distance (a b : Coord) : Option Int := do
  let x1 ← toI32 a.1
  let x2 ← toI32 b.1
  let x_distance := (x1 - x2).natAbs
  let y1 ← toI32 a.2
  let y2 ← toI32 b.2
  let y_distance := (y1 - y2).natAbs
  pure ((max x_distance y_distance : Nat) : Int)

/-- Models `IsBoard::peek` for the dense board: array indexing panics
(outer `none`) when either index is out of range. -/
def Board.peek (b : Board) (c : Coord) : Option (Option Piece) :=
  if h : c.1 < 9 ∧ c.2 < 9 then some (b ⟨c.1, h.1⟩ ⟨c.2, h.2⟩) else none

/-- Models `IsBoard::pop` for the dense board: returns the former content
and the updated board, or `none` (panic) when out of range. -/
def Board.pop (b : Board) (c : Coord) : Option (Option Piece × Board) :=
  if h : c.1 < 9 ∧ c.2 < 9 then
    some (b ⟨c.1, h.1⟩ ⟨c.2, h.2⟩, fun i j => if (i.val, j.val) = c then none else b i j)
  else none

/-- Models `IsBoard::put` for the dense board: unconditional overwrite, or
`none` (panic) when out of range. -/
def Board.put (b : Board) (c : Coord) (p : Option Piece) : Option Board :=
  if c.1 < 9 ∧ c.2 < 9 then
    some (fun i j => if (i.val, j.val) = c then p else b i j)
  else none

/-- Reads a dense board at a raw coordinate, with out-of-range reading as
empty.  This is a specification-side accessor used to state theorems, not
a function of the source. -/
def relAt (b : Board) (c : Coord) : Option Piece :=
  match Board.peek b c with
  | some v => v
  | none => none

/-- Models the dense-board
`move_nontam_piece_from_src_to_dest_while_taking_opponent_piece_if_needed`.
The outer `Option` is the indexing panic; the inner `Except` is the
`Result` of the source.  Note that the source reads the piece at `src`
but never clears `src`. -/
def Field.move_nontam_piece_from_src_to_dest_while_taking_opponent_piece_if_needed
    (self : Field) (src dest : Coord) (whose_turn : Side) :
    Option (Except String Field) := do
  let src_sq ← Board.peek self.current_board src
  match src_sq with
  | none => pure (Except.error "src does not contain a piece")
  | some Piece.Tam2 =>
      pure (Except.error "Expected a NonTam2Piece to be present at the src, but found a Tam2")
  | some (Piece.NonTam2Piece color prof side) =>
      if whose_turn ≠ side then
        pure (Except.error "Found the opponent piece at the src")
      else do
        let maybe_captured_piece ← Board.peek self.current_board dest
        let new_board ← Board.put self.current_board dest
          (some (Piece.NonTam2Piece color prof side))
        match maybe_captured_piece with
        | none => pure (Except.ok { self with current_board := new_board })
        | some Piece.Tam2 => pure (Except.error "Tried to capture a Tam2")
        | some (Piece.NonTam2Piece captured_color captured_prof captured_side) =>
            if captured_side = whose_turn then
              pure (Except.error "Tried to capture an ally")
            else
              match whose_turn with
              | Side.Downward =>
                  pure (Except.ok
                    { current_board := new_board,
                      hop1zuo1of_upward := self.hop1zuo1of_upward,
                      hop1zuo1of_downward :=
                        self.hop1zuo1of_downward ++ [⟨captured_color, captured_prof⟩] })
              | Side.Upward =>
                  pure (Except.ok
                    { current_board := new_board,
                      hop1zuo1of_upward :=
                        self.hop1zuo1of_upward ++ [⟨captured_color, captured_prof⟩],
                      hop1zuo1of_downward := self.hop1zuo1of_downward })

/-- Models the dense-board `search_from_hop1zuo1_and_parachute_at`.  The
outer `Option` is the indexing panic; the inner `Option` is the result of
the source. -/
def Field.search_from_hop1zuo1_and_parachute_at (self : Field) (color : Color)
    (prof : Profession) (side : Side) (dest : Coord) : Option (Option Field) :=
  match side with
  | Side.Upward =>
    match position (fun x => x == NonTam2PieceUpward.mk color prof) self.hop1zuo1of_upward with
    | none => some none
    | some index => do
        let sq ← Board.peek self.current_board dest
        if sq.isSome then
          pure none
        else do
          let new_board ← Board.put self.current_board dest
            (some (Piece.NonTam2Piece color prof side))
          pure (some { self with
            hop1zuo1of_upward := self.hop1zuo1of_upward.eraseIdx index,
            current_board := new_board })
  | Side.Downward =>
    match position (fun x => x == NonTam2PieceDownward.mk color prof) self.hop1zuo1of_downward with
    | none => some none
    | some index => do
        let sq ← Board.peek self.current_board dest
        if sq.isSome then
          pure none
        else do
          let new_board ← Board.put self.current_board dest
            (some (Piece.NonTam2Piece color prof side))
          pure (some { self with
            hop1zuo1of_downward := self.hop1zuo1of_downward.eraseIdx index,
            current_board := new_board })

end relative

namespace absolute

inductive Row where
  | A
  | E
  | I
  | U
  | O
  | Y
  | AI
  | AU
  | IA
  deriving DecidableEq, Fintype

inductive Column where
  | K
  | L
  | N
  | T
  | Z
  | X
  | C
  | M
  | P
  deriving DecidableEq, Fintype

/-- `pub struct Coord(pub Row, pub Column)`. -/
abbrev Coord := Row × Column

inductive Piece where
  | Tam2
  | NonTam2Piece (color : Color) (prof : Profession) (side : AbsoluteSide)
  deriving DecidableEq, Fintype

def Piece.is_tam2 : Piece → Bool
  | Piece.Tam2 => true
  | Piece.NonTam2Piece _ _ _ => false

def is_water (c : Coord) : Bool :=
  match c.1 with
  | Row.O =>
      (match c.2 with
       | Column.N | Column.T | Column.Z | Column.X | Column.C => true
       | _ => false)
  | Row.I | Row.U | Row.Y | Row.AI => c.2 == Column.Z
  | _ => false

/-- The sparse board `HashMap<Coord, Piece>`, modelled as its lookup
function. -/
abbrev Board := Coord → Option Piece

/-- Models `HashMap::remove` (forgetting the returned value). -/
def Board.removeAt (b : Board) (c : Coord) : Board :=
  fun x => if x = c then none else b x

/-- Models `HashMap::insert` (forgetting the returned value). -/
def Board.insertAt (b : Board) (c : Coord) (piece : Piece) : Board :=
  fun x => if x = c then some piece else b x

/-- Models `IsBoard::peek` for the sparse board: a map lookup, total. -/
def Board.peek (b : Board) (c : Coord) : Option Piece := b c

/-- Models `IsBoard::pop` for the sparse board: returns the removed value
and the updated board; total. -/
def Board.pop (b : Board) (c : Coord) : Option Piece × Board :=
  (b c, Board.removeAt b c)

/-- Models `IsBoard::put` for the sparse board: insert or remove; total. -/
def Board.put (b : Board) (c : Coord) (p : Option Piece) : Board :=
  match p with
  | none => Board.removeAt b c
  | some piece => Board.insertAt b c piece

structure Field where
  board : Board
  a_side_hop1zuo1 : List ColorAndProf
  ia_side_hop1zuo1 : List ColorAndProf

instance : DecidableEq Field := fun a b =>
  decidable_of_iff
    (a.board = b.board ∧ a.a_side_hop1zuo1 = b.a_side_hop1zuo1 ∧
      a.ia_side_hop1zuo1 = b.ia_side_hop1zuo1)
    (by cases a; cases b; simp)

/-- Models `hop1zuo1_of` from the crate root: the hand of the given side. -/
def hop1zuo1_of (side : AbsoluteSide) (f : Field) : List ColorAndProf :=
  match side with
  | AbsoluteSide.IASide => f.ia_side_hop1zuo1
  | AbsoluteSide.ASide => f.a_side_hop1zuo1

/-- Models the sparse-board
`move_nontam_piece_from_src_to_dest_while_taking_opponent_piece_if_needed`.
The source removes the piece at `src`, then reads and overwrites `dest`. -/
def Field.move_nontam_piece_from_src_to_dest_while_taking_opponent_piece_if_needed
    (self : Field) (src dest : Coord) (whose_turn : AbsoluteSide) :
    Except String Field :=
  match self.board src with
  | none => Except.error "src does not contain a piece"
  | some Piece.Tam2 =>
      Except.error "Expected a NonTam2Piece to be present at the src, but found a Tam2"
  | some (Piece.NonTam2Piece color prof side) =>
      if whose_turn ≠ side then
        Except.error "Found the opponent piece at the src"
      else
        let board_after_removal := Board.removeAt self.board src
        let src_piece := Piece.NonTam2Piece color prof side
        let maybe_captured_piece := board_after_removal dest
        let new_board := Board.insertAt board_after_removal dest src_piece
        match maybe_captured_piece with
        | none => Except.ok { self with board := new_board }
        | some Piece.Tam2 => Except.error "Tried to capture a Tam2"
        | some (Piece.NonTam2Piece captured_color captured_prof captured_side) =>
            if captured_side = whose_turn then
              Except.error "Tried to capture an ally"
            else
              match whose_turn with
              | AbsoluteSide.IASide =>
                  Except.ok
                    { board := new_board,
                      a_side_hop1zuo1 := self.a_side_hop1zuo1,
                      ia_side_hop1zuo1 :=
                        self.ia_side_hop1zuo1 ++ [⟨captured_color, captured_prof⟩] }
              | AbsoluteSide.ASide =>
                  Except.ok
                    { board := new_board,
                      a_side_hop1zuo1 :=
                        self.a_side_hop1zuo1 ++ [⟨captured_color, captured_prof⟩],
                      ia_side_hop1zuo1 := self.ia_side_hop1zuo1 }

/-- Models the sparse-board `search_from_hop1zuo1_and_parachute_at`. -/
def Field.search_from_hop1zuo1_and_parachute_at (self : Field) (color : Color)
    (prof : Profession) (side : AbsoluteSide) (dest : Coord) : Option Field :=
  match side with
  | AbsoluteSide.ASide =>
    match position (fun x => x == ColorAndProf.mk color prof) self.a_side_hop1zuo1 with
    | none => none
    | some index =>
        if (self.board dest).isSome then none
        else
          some { self with
            a_side_hop1zuo1 := self.a_side_hop1zuo1.eraseIdx index,
            board := Board.insertAt self.board dest (Piece.NonTam2Piece color prof side) }
  | AbsoluteSide.IASide =>
    match position (fun x => x == ColorAndProf.mk color prof) self.ia_side_hop1zuo1 with
    | none => none
    | some index =>
        if (self.board dest).isSome then none
        else
          some { self with
            ia_side_hop1zuo1 := self.ia_side_hop1zuo1.eraseIdx index,
            board := Board.insertAt self.board dest (Piece.NonTam2Piece color prof side) }

end absolute

namespace perspective

inductive Perspective where
  | IaIsDownAndPointsUpward
  | IaIsUpAndPointsDownward
  deriving DecidableEq, Fintype

def Perspective.ia_is_down : Perspective → Bool
  | Perspective.IaIsDownAndPointsUpward => true
  | Perspective.IaIsUpAndPointsDownward => false

def columns : List absolute.Column :=
  [absolute.Column.K, absolute.Column.L, absolute.Column.N, absolute.Column.T,
   absolute.Column.Z, absolute.Column.X, absolute.Column.C, absolute.Column.M,
   absolute.Column.P]

def rows : List absolute.Row :=
  [absolute.Row.A, absolute.Row.E, absolute.Row.I, absolute.Row.U, absolute.Row.O,
   absolute.Row.Y, absolute.Row.AI, absolute.Row.AU, absolute.Row.IA]

/-- Models `to_absolute_coord`.  The source indexes two `Vec`s with either
the raw index or `8 - index`; both the subtraction underflow and the
out-of-range indexing panic, modelled by `none`. -/
def to_absolute_coord (coord : relative.Coord) (p : Perspective) :
    Option absolute.Coord := do
  let ri ← if p.ia_is_down then some coord.1
           else if coord.1 ≤ 8 then some (8 - coord.1) else none
  let ci ← if p.ia_is_down then some coord.2
           else if coord.2 ≤ 8 then some (8 - coord.2) else none
  let r ← rows[ri]?
  let c ← columns[ci]?
  pure (r, c)

def columns_col : absolute.Column → Nat
  | absolute.Column.K => 0
  | absolute.Column.L => 1
  | absolute.Column.N => 2
  | absolute.Column.T => 3
  | absolute.Column.Z => 4
  | absolute.Column.X => 5
  | absolute.Column.C => 6
  | absolute.Column.M => 7
  | absolute.Column.P => 8

def rows_row : absolute.Row → Nat
  | absolute.Row.A => 0
  | absolute.Row.E => 1
  | absolute.Row.I => 2
  | absolute.Row.U => 3
  | absolute.Row.O => 4
  | absolute.Row.Y => 5
  | absolute.Row.AI => 6
  | absolute.Row.AU => 7
  | absolute.Row.IA => 8

/-- Models `to_relative_coord` (a total `const fn` in the source). -/
def to_relative_coord (coord : absolute.Coord) (p : Perspective) : relative.Coord :=
  if p.ia_is_down then (rows_row coord.1, columns_col coord.2)
  else (8 - rows_row coord.1, 8 - columns_col coord.2)

def to_absolute_side (side : relative.Side) (p : Perspective) : AbsoluteSide :=
  match side, p with
  | relative.Side.Upward, Perspective.IaIsDownAndPointsUpward => AbsoluteSide.IASide
  | relative.Side.Downward, Perspective.IaIsUpAndPointsDownward => AbsoluteSide.IASide
  | relative.Side.Downward, Perspective.IaIsDownAndPointsUpward => AbsoluteSide.ASide
  | relative.Side.Upward, Perspective.IaIsUpAndPointsDownward => AbsoluteSide.ASide

def to_relative_side (side : AbsoluteSide) (p : Perspective) : relative.Side :=
  match side, p with
  | AbsoluteSide.IASide, Perspective.IaIsDownAndPointsUpward => relative.Side.Upward
  | AbsoluteSide.ASide, Perspective.IaIsUpAndPointsDownward => relative.Side.Upward
  | AbsoluteSide.IASide, Perspective.IaIsUpAndPointsDownward => relative.Side.Downward
  | AbsoluteSide.ASide, Perspective.IaIsDownAndPointsUpward => relative.Side.Downward

def to_relative_piece (piece : absolute.Piece) (p : Perspective) : relative.Piece :=
  match piece with
  | absolute.Piece.Tam2 => relative.Piece.Tam2
  | absolute.Piece.NonTam2Piece color prof side =>
      relative.Piece.NonTam2Piece color prof (to_relative_side side p)

def to_absolute_piece (piece : relative.Piece) (p : Perspective) : absolute.Piece :=
  match piece with
  | relative.Piece.Tam2 => absolute.Piece.Tam2
  | relative.Piece.NonTam2Piece color prof side =>
      absolute.Piece.NonTam2Piece color prof (to_absolute_side side p)

/-- Models `to_relative_board`: each square of the dense result is filled
from the sparse board at the transformed coordinate. -/
def to_relative_board (board : absolute.Board) (p : Perspective) : relative.Board :=
  fun i j =>
    match to_absolute_coord (i.val, j.val) p with
    | some c => (board c).map (fun piece => to_relative_piece piece p)
    | none => none

/-- The iteration domain of `to_absolute_board`: all 81 squares, row by
row. -/
def allSquares : List (Fin 9 × Fin 9) :=
  (List.finRange 9).flatMap (fun i => (List.finRange 9).map (fun j => (i, j)))

/-- One loop iteration of `to_absolute_board`: insert the transformed
piece at the transformed coordinate when the square is occupied. -/
def to_absolute_board_step (board : relative.Board) (p : Perspective)
    (ans : absolute.Board) (ij : Fin 9 × Fin 9) : absolute.Board :=
  match board ij.1 ij.2 with
  | none => ans
  | some piece =>
      match to_absolute_coord (ij.1.val, ij.2.val) p with
      | none => ans
      | some c => absolute.Board.insertAt ans c (to_absolute_piece piece p)

/-- Models `to_absolute_board`: start from the empty map and insert every
occupied square at its transformed coordinate. -/
def to_absolute_board (board : relative.Board) (p : Perspective) : absolute.Board :=
  allSquares.foldl (to_absolute_board_step board p) (fun _ => none)

/-- Models `to_relative_field`, swapping which physical hand maps to which
relative hand according to the perspective. -/
def to_relative_field (field : absolute.Field) (p : Perspective) : relative.Field :=
  let downward_source : List ColorAndProf :=
    match p with
    | Perspective.IaIsUpAndPointsDownward => field.ia_side_hop1zuo1
    | Perspective.IaIsDownAndPointsUpward => field.a_side_hop1zuo1
  let upward_source : List ColorAndProf :=
    match p with
    | Perspective.IaIsUpAndPointsDownward => field.a_side_hop1zuo1
    | Perspective.IaIsDownAndPointsUpward => field.ia_side_hop1zuo1
  { hop1zuo1of_downward :=
      downward_source.map (fun x => relative.NonTam2PieceDownward.mk x.color x.prof),
    hop1zuo1of_upward :=
      upward_source.map (fun x => relative.NonTam2PieceUpward.mk x.color x.prof),
    current_board := to_relative_board field.board p }

/-- Models `to_absolute_field`. -/
def to_absolute_field (field : relative.Field) (p : Perspective) : absolute.Field :=
  { board := to_absolute_board field.current_board p,
    ia_side_hop1zuo1 :=
      match p with
      | Perspective.IaIsDownAndPointsUpward =>
          field.hop1zuo1of_upward.map (fun x => ColorAndProf.mk x.color x.prof)
      | Perspective.IaIsUpAndPointsDownward =>
          field.hop1zuo1of_downward.map (fun x => ColorAndProf.mk x.color x.prof),
    a_side_hop1zuo1 :=
      match p with
      | Perspective.IaIsDownAndPointsUpward =>
          field.hop1zuo1of_downward.map (fun x => ColorAndProf.mk x.color x.prof)
      | Perspective.IaIsUpAndPointsDownward =>
          field.hop1zuo1of_upward.map (fun x => ColorAndProf.mk x.color x.prof) }

end perspective

/-- Models `absolute::distance`, which normalizes through one fixed
perspective and delegates to `relative::distance`. -/
def absolute.distance (a b : absolute.Coord) : Option Int :=
  relative.distance
    (perspective.to_relative_coord a perspective.Perspective.IaIsDownAndPointsUpward)
    (perspective.to_relative_coord b perspective.Perspective.IaIsDownAndPointsUpward)

/-- Models `absolute::same_direction`, on normalized integer vectors from
`origin`. -/
def absolute.same_direction (origin a b : absolute.Coord) : Bool :=
  let origin_r :=
    perspective.to_relative_coord origin perspective.Perspective.IaIsDownAndPointsUpward
  let a_r := perspective.to_relative_coord a perspective.Perspective.IaIsDownAndPointsUpward
  let b_r := perspective.to_relative_coord b perspective.Perspective.IaIsDownAndPointsUpward
  let a_u : Int := (a_r.1 : Int) - (origin_r.1 : Int)
  let a_v : Int := (a_r.2 : Int) - (origin_r.2 : Int)
  let b_u : Int := (b_r.1 : Int) - (origin_r.1 : Int)
  let b_v : Int := (b_r.2 : Int) - (origin_r.2 : Int)
  (decide (a_u * b_u + a_v * b_v > 0)) && (decide (a_u * b_v - a_v * b_u = 0))

/-! ### Helper lemmas about the perspective transform -/

namespace perspective

theorem coord_rt1 (p : Perspective) (c : absolute.Coord) :
    to_absolute_coord (to_relative_coord c p) p = some c := by
  revert p c; decide

theorem coord_rt2 (p : Perspective) (ij : Fin 9 × Fin 9) :
    (to_absolute_coord (ij.1.val, ij.2.val) p).map (fun c => to_relative_coord c p) =
      some (ij.1.val, ij.2.val) := by
  revert p ij; decide

theorem coord_bounds (c : absolute.Coord) (p : Perspective) :
    (to_relative_coord c p).1 < 9 ∧ (to_relative_coord c p).2 < 9 := by
  revert c p; decide

theorem piece_rt1 (p : Perspective) (piece : relative.Piece) :
    to_relative_piece (to_absolute_piece piece p) p = piece := by
  revert p piece; decide

theorem piece_rt2 (p : Perspective) (piece : absolute.Piece) :
    to_absolute_piece (to_relative_piece piece p) p = piece := by
  revert p piece; decide

theorem mem_allSquares (ij : Fin 9 × Fin 9) : ij ∈ allSquares := by
  revert ij; decide

theorem to_absolute_board_step_apply_ne (board : relative.Board) (p : Perspective)
    (ans : absolute.Board) (ij : Fin 9 × Fin 9) (c : absolute.Coord)
    (h : to_absolute_coord (ij.1.val, ij.2.val) p ≠ some c) :
    to_absolute_board_step board p ans ij c = ans c := by
  unfold to_absolute_board_step
  cases hb : board ij.1 ij.2 with
  | none => rfl
  | some piece =>
    cases hc : to_absolute_coord (ij.1.val, ij.2.val) p with
    | none => rfl
    | some c1 =>
      have hne : c ≠ c1 := by
        intro e
        exact h (by rw [hc, e])
      show absolute.Board.insertAt ans c1 (to_absolute_piece piece p) c = ans c
      unfold absolute.Board.insertAt
      exact if_neg hne

theorem foldl_step_apply_of_not_written (board : relative.Board) (p : Perspective)
    (c : absolute.Coord) (l : List (Fin 9 × Fin 9)) :
    ∀ ans : absolute.Board,
      (∀ ij ∈ l, to_absolute_coord (ij.1.val, ij.2.val) p ≠ some c) →
      (l.foldl (to_absolute_board_step board p) ans) c = ans c := by
  induction l with
  | nil => intro ans _; rfl
  | cons x t ih =>
    intro ans h
    rw [List.foldl_cons]
    rw [ih _ (fun ij hij => h ij (List.mem_cons_of_mem x hij))]
    exact to_absolute_board_step_apply_ne board p ans x c (h x (List.mem_cons_self x t))

theorem foldl_step_apply_of_written (board : relative.Board) (p : Perspective)
    (c : absolute.Coord) (ij0 : Fin 9 × Fin 9)
    (hkey : to_absolute_coord (ij0.1.val, ij0.2.val) p = some c) :
    ∀ (l : List (Fin 9 × Fin 9)), ij0 ∈ l →
      (∀ ij ∈ l, to_absolute_coord (ij.1.val, ij.2.val) p = some c → ij = ij0) →
      ∀ ans : absolute.Board,
        (l.foldl (to_absolute_board_step board p) ans) c =
          match board ij0.1 ij0.2 with
          | some piece => some (to_absolute_piece piece p)
          | none => ans c := by
  intro l
  induction l with
  | nil => intro h; exact absurd h (List.not_mem_nil ij0)
  | cons x t ih =>
    intro hmem huniq ans
    rw [List.foldl_cons]
    by_cases hx : ij0 ∈ t
    · rw [ih hx (fun ij hij h => huniq ij (List.mem_cons_of_mem x hij) h)
        (to_absolute_board_step board p ans x)]
      cases hb : board ij0.1 ij0.2 with
      | some piece => rfl
      | none =>
        show to_absolute_board_step board p ans x c = ans c
        by_cases hx0 : x = ij0
        · subst hx0
          unfold to_absolute_board_step
          rw [hb]
        · refine to_absolute_board_step_apply_ne board p ans x c ?_
          intro hk
          exact hx0 (huniq x (List.mem_cons_self x t) hk)
    · have hx0 : x = ij0 := by
        rcases List.mem_cons.mp hmem with h | h
        · exact h.symm
        · exact absurd h hx
      subst hx0
      have hnone : ∀ ij ∈ t, to_absolute_coord (ij.1.val, ij.2.val) p ≠ some c := by
        intro ij hij hk
        exact hx ((huniq ij (List.mem_cons_of_mem x hij) hk) ▸ hij)
      rw [foldl_step_apply_of_not_written board p c t _ hnone]
      unfold to_absolute_board_step
      cases hb : board x.1 x.2 with
      | none => rfl
      | some piece =>
        rw [hkey]
        show absolute.Board.insertAt ans c (to_absolute_piece piece p) c = _
        unfold absolute.Board.insertAt
        rw [if_pos rfl]

theorem to_absolute_board_apply (board : relative.Board) (p : Perspective)
    (c : absolute.Coord) :
    to_absolute_board board p c =
      (relative.relAt board (to_relative_coord c p)).map
        (fun q => to_absolute_piece q p) := by
  have hb := coord_bounds c p
  have hkey : to_absolute_coord
      (((⟨(to_relative_coord c p).1, hb.1⟩ : Fin 9), (⟨(to_relative_coord c p).2, hb.2⟩ : Fin 9)).1.val,
       ((⟨(to_relative_coord c p).1, hb.1⟩ : Fin 9), (⟨(to_relative_coord c p).2, hb.2⟩ : Fin 9)).2.val) p
      = some c := coord_rt1 p c
  have huniq : ∀ ij ∈ allSquares, to_absolute_coord (ij.1.val, ij.2.val) p = some c →
      ij = ((⟨(to_relative_coord c p).1, hb.1⟩ : Fin 9), (⟨(to_relative_coord c p).2, hb.2⟩ : Fin 9)) := by
    intro ij _ hk
    have h2 := coord_rt2 p ij
    rw [hk] at h2
    simp only [Option.map_some'] at h2
    have h2 : to_relative_coord c p = (ij.1.val, ij.2.val) := by
      injection h2
    apply Prod.ext
    · apply Fin.ext
      show ij.1.val = (to_relative_coord c p).1
      rw [h2]
    · apply Fin.ext
      show ij.2.val = (to_relative_coord c p).2
      rw [h2]
  have hmain := foldl_step_apply_of_written board p c _ hkey allSquares
    (mem_allSquares _) huniq (fun _ => none)
  unfold to_absolute_board
  rw [hmain]
  unfold relative.relAt relative.Board.peek
  rw [dif_pos (⟨hb.1, hb.2⟩ : (to_relative_coord c p).1 < 9 ∧ (to_relative_coord c p).2 < 9)]
  cases board ⟨(to_relative_coord c p).1, hb.1⟩ ⟨(to_relative_coord c p).2, hb.2⟩ with
  | none => rfl
  | some piece => rfl

end perspective

namespace perspective

theorem board_rt1 (p : Perspective) (b : absolute.Board) :
    to_absolute_board (to_relative_board b p) p = b := by
  funext c
  rw [to_absolute_board_apply]
  have hb := coord_bounds c p
  unfold relative.relAt relative.Board.peek
  rw [dif_pos (⟨hb.1, hb.2⟩ : (to_relative_coord c p).1 < 9 ∧ (to_relative_coord c p).2 < 9)]
  show ((to_relative_board b p ⟨(to_relative_coord c p).1, hb.1⟩
      ⟨(to_relative_coord c p).2, hb.2⟩).map (fun q => to_absolute_piece q p)) = b c
  unfold to_relative_board
  have hcc : to_absolute_coord ((to_relative_coord c p).1, (to_relative_coord c p).2) p = some c :=
    coord_rt1 p c
  rw [hcc]
  show ((b c).map (fun piece => to_relative_piece piece p)).map
      (fun q => to_absolute_piece q p) = b c
  cases hbc : b c with
  | none => rfl
  | some piece =>
    simp only [Option.map_some']
    rw [piece_rt2]

theorem board_rt2 (p : Perspective) (rb : relative.Board) :
    to_relative_board (to_absolute_board rb p) p = rb := by
  funext i j
  unfold to_relative_board
  have h2 := coord_rt2 p (i, j)
  cases hk : to_absolute_coord ((i, j).1.val, (i, j).2.val) p with
  | none => rw [hk] at h2; simp at h2
  | some c =>
    rw [hk] at h2
    simp only [Option.map_some'] at h2
    have hc : to_relative_coord c p = (i.val, j.val) := by injection h2
    show (to_absolute_board rb p c).map (fun piece => to_relative_piece piece p) = rb i j
    rw [to_absolute_board_apply, hc]
    unfold relative.relAt relative.Board.peek
    rw [dif_pos (⟨i.isLt, j.isLt⟩ : (i.val, j.val).1 < 9 ∧ (i.val, j.val).2 < 9)]
    show ((rb ⟨i.val, i.isLt⟩ ⟨j.val, j.isLt⟩).map (fun q => to_absolute_piece q p)).map
        (fun piece => to_relative_piece piece p) = rb i j
    have hi : (⟨i.val, i.isLt⟩ : Fin 9) = i := rfl
    have hj : (⟨j.val, j.isLt⟩ : Fin 9) = j := rfl
    rw [hi, hj]
    cases rb i j with
    | none => rfl
    | some piece =>
      simp only [Option.map_some']
      rw [piece_rt1]

theorem hand_rt_cp_up (l : List ColorAndProf) :
    (l.map (fun x => relative.NonTam2PieceUpward.mk x.color x.prof)).map
      (fun x => ColorAndProf.mk x.color x.prof) = l := by
  induction l with
  | nil => rfl
  | cons x t ih => simp only [List.map_cons, ih]

theorem hand_rt_cp_down (l : List ColorAndProf) :
    (l.map (fun x => relative.NonTam2PieceDownward.mk x.color x.prof)).map
      (fun x => ColorAndProf.mk x.color x.prof) = l := by
  induction l with
  | nil => rfl
  | cons x t ih => simp only [List.map_cons, ih]

theorem hand_rt_up_cp (l : List relative.NonTam2PieceUpward) :
    (l.map (fun x => ColorAndProf.mk x.color x.prof)).map
      (fun x => relative.NonTam2PieceUpward.mk x.color x.prof) = l := by
  induction l with
  | nil => rfl
  | cons x t ih => simp only [List.map_cons, ih]

theorem hand_rt_down_cp (l : List relative.NonTam2PieceDownward) :
    (l.map (fun x => ColorAndProf.mk x.color x.prof)).map
      (fun x => relative.NonTam2PieceDownward.mk x.color x.prof) = l := by
  induction l with
  | nil => rfl
  | cons x t ih => simp only [List.map_cons, ih]

theorem field_rt1 (p : Perspective) (f : absolute.Field) :
    to_absolute_field (to_relative_field f p) p = f := by
  rcases f with ⟨b, ah, ih⟩
  cases p <;>
    (simp only [to_absolute_field, to_relative_field]
     rw [board_rt1, hand_rt_cp_up, hand_rt_cp_down])

theorem field_rt2 (p : Perspective) (rf : relative.Field) :
    to_relative_field (to_absolute_field rf p) p = rf := by
  rcases rf with ⟨rb, hup, hdown⟩
  cases p <;>
    (simp only [to_absolute_field, to_relative_field]
     rw [board_rt2, hand_rt_up_cp, hand_rt_down_cp])

end perspective

/-! ### Claim theorems -/

/-- Claim C1: the perspective transform is a two-sided inverse at every
level: coordinates (absolute→relative→absolute for all 81 coordinates,
and relative→absolute→relative for all indices in `[0,9) × [0,9)`),
pieces, boards, and whole fields including the two hand pools, whose side
labels are swapped according to the side mapping of the perspective. -/
theorem claim_C1 :
    (∀ (p : perspective.Perspective) (c : absolute.Coord),
       perspective.to_absolute_coord (perspective.to_relative_coord c p) p = some c) ∧
    (∀ (p : perspective.Perspective) (i j : Nat), i < 9 → j < 9 →
       (perspective.to_absolute_coord (i, j) p).map
         (fun c => perspective.to_relative_coord c p) = some (i, j)) ∧
    (∀ (p : perspective.Perspective) (piece : relative.Piece),
       perspective.to_relative_piece (perspective.to_absolute_piece piece p) p = piece) ∧
    (∀ (p : perspective.Perspective) (piece : absolute.Piece),
       perspective.to_absolute_piece (perspective.to_relative_piece piece p) p = piece) ∧
    (∀ (p : perspective.Perspective) (b : absolute.Board),
       perspective.to_absolute_board (perspective.to_relative_board b p) p = b) ∧
    (∀ (p : perspective.Perspective) (rb : relative.Board),
       perspective.to_relative_board (perspective.to_absolute_board rb p) p = rb) ∧
    (∀ (p : perspective.Perspective) (f : absolute.Field),
       perspective.to_absolute_field (perspective.to_relative_field f p) p = f) ∧
    (∀ (p : perspective.Perspective) (rf : relative.Field),
       perspective.to_relative_field (perspective.to_absolute_field rf p) p = rf) := by
  refine ⟨perspective.coord_rt1, ?_, perspective.piece_rt1, perspective.piece_rt2,
    perspective.board_rt1, perspective.board_rt2, perspective.field_rt1, perspective.field_rt2⟩
  intro p i j hi hj
  exact perspective.coord_rt2 p (⟨i, hi⟩, ⟨j, hj⟩)

/-- Witness for C1 at a concrete in-range relative coordinate. -/
theorem claim_C1_witness :
    (perspective.to_absolute_coord (2, 4) perspective.Perspective.IaIsDownAndPointsUpward).map
      (fun c => perspective.to_relative_coord c perspective.Perspective.IaIsDownAndPointsUpward) =
      some (2, 4) :=
  claim_C1.2.1 perspective.Perspective.IaIsDownAndPointsUpward 2 4 (by decide) (by decide)

/-- Claim C10: the two hard-coded water-square definitions agree under the
coordinate transform for every absolute coordinate and both perspectives,
and each marks exactly 9 of the 81 squares. -/
theorem claim_C10 :
    (∀ (c : absolute.Coord) (p : perspective.Perspective),
       absolute.is_water c = relative.is_water (perspective.to_relative_coord c p)) ∧
    (Finset.univ.filter (fun c : absolute.Coord => absolute.is_water c = true)).card = 9 ∧
    (Finset.univ.filter
      (fun ij : Fin 9 × Fin 9 => relative.is_water (ij.1.val, ij.2.val) = true)).card = 9 := by
  refine ⟨?_, by decide, by decide⟩
  decide

/-- Claim C8. -/
theorem claim_C8 :
    ∀ origin a b : absolute.Coord,
      (absolute.same_direction origin a b = true ↔
        (((((perspective.to_relative_coord a perspective.Perspective.IaIsDownAndPointsUpward).1 : Int) -
            ((perspective.to_relative_coord origin perspective.Perspective.IaIsDownAndPointsUpward).1 : Int)) *
          (((perspective.to_relative_coord b perspective.Perspective.IaIsDownAndPointsUpward).1 : Int) -
            ((perspective.to_relative_coord origin perspective.Perspective.IaIsDownAndPointsUpward).1 : Int)) +
          ((((perspective.to_relative_coord a perspective.Perspective.IaIsDownAndPointsUpward).2 : Int) -
            ((perspective.to_relative_coord origin perspective.Perspective.IaIsDownAndPointsUpward).2 : Int)) *
           (((perspective.to_relative_coord b perspective.Perspective.IaIsDownAndPointsUpward).2 : Int) -
            ((perspective.to_relative_coord origin perspective.Perspective.IaIsDownAndPointsUpward).2 : Int))) > 0) ∧
         ((((perspective.to_relative_coord a perspective.Perspective.IaIsDownAndPointsUpward).1 : Int) -
            ((perspective.to_relative_coord origin perspective.Perspective.IaIsDownAndPointsUpward).1 : Int)) *
          (((perspective.to_relative_coord b perspective.Perspective.IaIsDownAndPointsUpward).2 : Int) -
            ((perspective.to_relative_coord origin perspective.Perspective.IaIsDownAndPointsUpward).2 : Int)) -
          ((((perspective.to_relative_coord a perspective.Perspective.IaIsDownAndPointsUpward).2 : Int) -
            ((perspective.to_relative_coord origin perspective.Perspective.IaIsDownAndPointsUpward).2 : Int)) *
           (((perspective.to_relative_coord b perspective.Perspective.IaIsDownAndPointsUpward).1 : Int) -
            ((perspective.to_relative_coord origin perspective.Perspective.IaIsDownAndPointsUpward).1 : Int))) = 0))) ∧
      (absolute.same_direction origin origin b = false) ∧
      (absolute.same_direction origin a origin = false) := by
  intro origin a b
  refine ⟨?_, ?_, ?_⟩
  · simp [absolute.same_direction, Bool.and_eq_true, decide_eq_true_iff]
  · simp [absolute.same_direction]
  · simp [absolute.same_direction]

namespace perspective

theorem rows_row_le (r : absolute.Row) : rows_row r ≤ 8 := by cases r <;> decide

theorem columns_col_le (c : absolute.Column) : columns_col c ≤ 8 := by cases c <;> decide

theorem distance_eq_of_lt (x1 y1 x2 y2 : Nat)
    (h1 : x1 < 2147483648) (h2 : x2 < 2147483648)
    (h3 : y1 < 2147483648) (h4 : y2 < 2147483648) :
    relative.distance (x1, y1) (x2, y2) =
      some ((max ((x1 : Int) - x2).natAbs ((y1 : Int) - y2).natAbs : Nat) : Int) := by
  unfold relative.distance relative.toI32
  rw [if_pos h1, if_pos h2, if_pos h3, if_pos h4]
  rfl

theorem rel_distance_formula (a b : absolute.Coord) (p : Perspective) :
    relative.distance (to_relative_coord a p) (to_relative_coord b p) =
      some ((max (((to_relative_coord a p).1 : Int) - ((to_relative_coord b p).1 : Int)).natAbs
                 (((to_relative_coord a p).2 : Int) - ((to_relative_coord b p).2 : Int)).natAbs : Nat) : Int) := by
  have ha := coord_bounds a p
  have hb := coord_bounds b p
  exact distance_eq_of_lt (to_relative_coord a p).1 (to_relative_coord a p).2
    (to_relative_coord b p).1 (to_relative_coord b p).2
    (lt_trans ha.1 (by norm_num)) (lt_trans hb.1 (by norm_num))
    (lt_trans ha.2 (by norm_num)) (lt_trans hb.2 (by norm_num))

theorem natAbs_sub_swap (u v : Int) : (u - v).natAbs = (v - u).natAbs := by
  rw [← Int.natAbs_neg (u - v), neg_sub]

end perspective

/-- Claim C9. -/
theorem claim_C9 :
    (∀ (a b : absolute.Coord) (p : perspective.Perspective),
       absolute.distance a b =
         relative.distance (perspective.to_relative_coord a p)
           (perspective.to_relative_coord b p)) ∧
    (∀ (a b : absolute.Coord) (p : perspective.Perspective),
       relative.distance (perspective.to_relative_coord a p)
           (perspective.to_relative_coord b p) =
         some ((max (((perspective.to_relative_coord a p).1 : Int) -
                       ((perspective.to_relative_coord b p).1 : Int)).natAbs
                    (((perspective.to_relative_coord a p).2 : Int) -
                       ((perspective.to_relative_coord b p).2 : Int)).natAbs : Nat) : Int)) ∧
    (∀ a b : absolute.Coord, absolute.distance a b = absolute.distance b a) ∧
    (∀ a : absolute.Coord, absolute.distance a a = some 0) := by
  refine ⟨?_, perspective.rel_distance_formula, ?_, ?_⟩
  · intro a b p
    cases p with
    | IaIsDownAndPointsUpward => rfl
    | IaIsUpAndPointsDownward =>
      unfold absolute.distance
      rw [perspective.rel_distance_formula a b perspective.Perspective.IaIsDownAndPointsUpward,
        perspective.rel_distance_formula a b perspective.Perspective.IaIsUpAndPointsDownward]
      show some ((max (((perspective.rows_row a.1 : Nat) : Int) - ((perspective.rows_row b.1 : Nat) : Int)).natAbs
                     (((perspective.columns_col a.2 : Nat) : Int) - ((perspective.columns_col b.2 : Nat) : Int)).natAbs : Nat) : Int) =
        some ((max ((((8 - perspective.rows_row a.1 : Nat) : Int)) - (((8 - perspective.rows_row b.1 : Nat) : Int))).natAbs
                   ((((8 - perspective.columns_col a.2 : Nat) : Int)) - (((8 - perspective.columns_col b.2 : Nat) : Int))).natAbs : Nat) : Int)
      have e1 : (((8 - perspective.rows_row a.1 : Nat) : Int)) - (((8 - perspective.rows_row b.1 : Nat) : Int)) =
          -(((perspective.rows_row a.1 : Nat) : Int) - ((perspective.rows_row b.1 : Nat) : Int)) := by
        rw [Nat.cast_sub (perspective.rows_row_le a.1), Nat.cast_sub (perspective.rows_row_le b.1)]
        ring
      have e2 : (((8 - perspective.columns_col a.2 : Nat) : Int)) - (((8 - perspective.columns_col b.2 : Nat) : Int)) =
          -(((perspective.columns_col a.2 : Nat) : Int) - ((perspective.columns_col b.2 : Nat) : Int)) := by
        rw [Nat.cast_sub (perspective.columns_col_le a.2), Nat.cast_sub (perspective.columns_col_le b.2)]
        ring
      rw [e1, e2, Int.natAbs_neg, Int.natAbs_neg]
  · intro a b
    unfold absolute.distance
    rw [perspective.rel_distance_formula a b perspective.Perspective.IaIsDownAndPointsUpward,
      perspective.rel_distance_formula b a perspective.Perspective.IaIsDownAndPointsUpward]
    rw [perspective.natAbs_sub_swap
        (((perspective.to_relative_coord a perspective.Perspective.IaIsDownAndPointsUpward).1 : Int))
        (((perspective.to_relative_coord b perspective.Perspective.IaIsDownAndPointsUpward).1 : Int)),
      perspective.natAbs_sub_swap
        (((perspective.to_relative_coord a perspective.Perspective.IaIsDownAndPointsUpward).2 : Int))
        (((perspective.to_relative_coord b perspective.Perspective.IaIsDownAndPointsUpward).2 : Int))]
  · intro a
    unfold absolute.distance
    rw [perspective.rel_distance_formula a a perspective.Perspective.IaIsDownAndPointsUpward]
    simp

namespace absolute

theorem moveAbs_empty_src (f : Field) (src dest : Coord) (t : AbsoluteSide)
    (h : f.board src = none) :
    f.move_nontam_piece_from_src_to_dest_while_taking_opponent_piece_if_needed src dest t =
      Except.error "src does not contain a piece" := by
  unfold Field.move_nontam_piece_from_src_to_dest_while_taking_opponent_piece_if_needed
  rw [h]

theorem moveAbs_tam_src (f : Field) (src dest : Coord) (t : AbsoluteSide)
    (h : f.board src = some Piece.Tam2) :
    f.move_nontam_piece_from_src_to_dest_while_taking_opponent_piece_if_needed src dest t =
      Except.error "Expected a NonTam2Piece to be present at the src, but found a Tam2" := by
  unfold Field.move_nontam_piece_from_src_to_dest_while_taking_opponent_piece_if_needed
  rw [h]

theorem moveAbs_not_owner (f : Field) (src dest : Coord) (t : AbsoluteSide)
    (c : Color) (pr : Profession) (s : AbsoluteSide)
    (h : f.board src = some (Piece.NonTam2Piece c pr s)) (hts : t ≠ s) :
    f.move_nontam_piece_from_src_to_dest_while_taking_opponent_piece_if_needed src dest t =
      Except.error "Found the opponent piece at the src" := by
  unfold Field.move_nontam_piece_from_src_to_dest_while_taking_opponent_piece_if_needed
  rw [h]
  show (if t ≠ s then _ else _) = _
  rw [if_pos hts]

theorem moveAbs_capture_tam (f : Field) (src dest : Coord) (t : AbsoluteSide)
    (c : Color) (pr : Profession)
    (h : f.board src = some (Piece.NonTam2Piece c pr t)) (hne : src ≠ dest)
    (hd : f.board dest = some Piece.Tam2) :
    f.move_nontam_piece_from_src_to_dest_while_taking_opponent_piece_if_needed src dest t =
      Except.error "Tried to capture a Tam2" := by
  unfold Field.move_nontam_piece_from_src_to_dest_while_taking_opponent_piece_if_needed
  rw [h]
  show (if t ≠ t then _ else _) = _
  rw [if_neg (show ¬t ≠ t from fun hh => hh rfl)]
  show (match Board.removeAt f.board src dest with
        | none => _
        | some Piece.Tam2 => Except.error "Tried to capture a Tam2"
        | some (Piece.NonTam2Piece _ _ _) => _) = _
  unfold Board.removeAt
  rw [if_neg (fun e => hne e.symm), hd]

theorem moveAbs_capture_ally (f : Field) (src dest : Coord) (t : AbsoluteSide)
    (c : Color) (pr : Profession) (c2 : Color) (p2 : Profession)
    (h : f.board src = some (Piece.NonTam2Piece c pr t)) (hne : src ≠ dest)
    (hd : f.board dest = some (Piece.NonTam2Piece c2 p2 t)) :
    f.move_nontam_piece_from_src_to_dest_while_taking_opponent_piece_if_needed src dest t =
      Except.error "Tried to capture an ally" := by
  unfold Field.move_nontam_piece_from_src_to_dest_while_taking_opponent_piece_if_needed
  rw [h]
  show (if t ≠ t then _ else _) = _
  rw [if_neg (show ¬t ≠ t from fun hh => hh rfl)]
  show (match Board.removeAt f.board src dest with
        | none => _
        | some Piece.Tam2 => _
        | some (Piece.NonTam2Piece c2 p2 s2) =>
            if s2 = t then Except.error "Tried to capture an ally" else _) = _
  unfold Board.removeAt
  rw [if_neg (fun e => hne e.symm), hd]
  show (if t = t then _ else _) = _
  rw [if_pos rfl]

theorem moveAbs_ok_characterize (f : Field) (src dest : Coord) (t : AbsoluteSide)
    (f2 : Field)
    (h : f.move_nontam_piece_from_src_to_dest_while_taking_opponent_piece_if_needed src dest t =
      Except.ok f2) :
    ∃ c pr, f.board src = some (Piece.NonTam2Piece c pr t) ∧
      f2.board = Board.insertAt (Board.removeAt f.board src) dest (Piece.NonTam2Piece c pr t) ∧
      (Board.removeAt f.board src) dest ≠ some Piece.Tam2 := by
  unfold Field.move_nontam_piece_from_src_to_dest_while_taking_opponent_piece_if_needed at h
  split at h
  · exact absurd h (by simp)
  · exact absurd h (by simp)
  · rename_i heq0 c pr s heq
    dsimp only [] at h
    split at h
    · exact absurd h (by simp)
    · rename_i hts
      have hst : s = t := by
        by_contra hh
        exact hts (fun e => hh e.symm)
      subst hst
      refine ⟨c, pr, heq, ?_⟩
      split at h
      · rename_i hdest
        have h2 := Except.ok.inj h
        constructor
        · rw [← h2]
        · rw [hdest]
          simp
      · exact absurd h (by simp)
      · rename_i c2 p2 s2 hdest
        split at h
        · exact absurd h (by simp)
        · rename_i hcap
          split at h
          all_goals
            have h2 := Except.ok.inj h
            constructor
            · rw [← h2]
            · rw [hdest]
              simp


theorem moveAbs_same_square_isOk (f : Field) (src : Coord) (t : AbsoluteSide)
    (c : Color) (pr : Profession)
    (h : f.board src = some (Piece.NonTam2Piece c pr t)) :
    (f.move_nontam_piece_from_src_to_dest_while_taking_opponent_piece_if_needed src src t).isOk
      = true := by
  unfold Field.move_nontam_piece_from_src_to_dest_while_taking_opponent_piece_if_needed
  rw [h]
  show ((if t ≠ t then _ else _ : Except String Field)).isOk = true
  rw [if_neg (show ¬t ≠ t from fun hh => hh rfl)]
  show (match Board.removeAt f.board src src with
        | none => Except.ok _
        | some Piece.Tam2 => _
        | some (Piece.NonTam2Piece _ _ _) => _).isOk = true
  unfold Board.removeAt
  rw [if_pos rfl]
  rfl

theorem moveAbs_empty_dest_isOk (f : Field) (src dest : Coord) (t : AbsoluteSide)
    (c : Color) (pr : Profession)
    (h : f.board src = some (Piece.NonTam2Piece c pr t)) (hne : src ≠ dest)
    (hd : f.board dest = none) :
    (f.move_nontam_piece_from_src_to_dest_while_taking_opponent_piece_if_needed src dest t).isOk
      = true := by
  unfold Field.move_nontam_piece_from_src_to_dest_while_taking_opponent_piece_if_needed
  rw [h]
  show ((if t ≠ t then _ else _ : Except String Field)).isOk = true
  rw [if_neg (show ¬t ≠ t from fun hh => hh rfl)]
  show (match Board.removeAt f.board src dest with
        | none => Except.ok _
        | some Piece.Tam2 => _
        | some (Piece.NonTam2Piece _ _ _) => _).isOk = true
  unfold Board.removeAt
  rw [if_neg (fun e => hne e.symm), hd]
  rfl

theorem moveAbs_capture_isOk (f : Field) (src dest : Coord) (t : AbsoluteSide)
    (c : Color) (pr : Profession) (c2 : Color) (p2 : Profession) (s2 : AbsoluteSide)
    (h : f.board src = some (Piece.NonTam2Piece c pr t)) (hne : src ≠ dest)
    (hd : f.board dest = some (Piece.NonTam2Piece c2 p2 s2)) (hs2 : s2 ≠ t) :
    (f.move_nontam_piece_from_src_to_dest_while_taking_opponent_piece_if_needed src dest t).isOk
      = true := by
  unfold Field.move_nontam_piece_from_src_to_dest_while_taking_opponent_piece_if_needed
  rw [h]
  show ((if t ≠ t then _ else _ : Except String Field)).isOk = true
  rw [if_neg (show ¬t ≠ t from fun hh => hh rfl)]
  show (match Board.removeAt f.board src dest with
        | none => Except.ok _
        | some Piece.Tam2 => _
        | some (Piece.NonTam2Piece c2 p2 s2) =>
            if s2 = t then _
            else match t with
                 | AbsoluteSide.IASide => Except.ok _
                 | AbsoluteSide.ASide => Except.ok _).isOk = true
  unfold Board.removeAt
  rw [if_neg (fun e => hne e.symm), hd]
  show ((if s2 = t then _ else _ : Except String Field)).isOk = true
  rw [if_neg hs2]
  cases t <;> rfl

theorem moveAbs_isOk_iff (f : Field) (src dest : Coord) (t : AbsoluteSide) :
    (f.move_nontam_piece_from_src_to_dest_while_taking_opponent_piece_if_needed
        src dest t).isOk = true ↔
      ∃ c pr, f.board src = some (Piece.NonTam2Piece c pr t) ∧
        (src = dest ∨ f.board dest = none ∨
          ∃ c2 p2 s2, f.board dest = some (Piece.NonTam2Piece c2 p2 s2) ∧ s2 ≠ t) := by
  cases hsrc : f.board src with
  | none =>
    rw [moveAbs_empty_src f src dest t hsrc]
    simp [hsrc, Except.isOk, Except.toBool]
  | some piece =>
    cases piece with
    | Tam2 =>
      rw [moveAbs_tam_src f src dest t hsrc]
      simp [hsrc, Except.isOk, Except.toBool]
    | NonTam2Piece c pr s =>
      by_cases hts : t = s
      · subst hts
        by_cases hsd : src = dest
        · subst hsd
          rw [moveAbs_same_square_isOk f src t c pr hsrc]
          simp [hsrc]
        · cases hdest : f.board dest with
          | none =>
            rw [moveAbs_empty_dest_isOk f src dest t c pr hsrc hsd hdest]
            simp [hsrc, hdest]
          | some captured =>
            cases captured with
            | Tam2 =>
              rw [moveAbs_capture_tam f src dest t c pr hsrc hsd hdest]
              simp [hsrc, hdest, hsd, Except.isOk, Except.toBool]
            | NonTam2Piece c2 p2 s2 =>
              by_cases hcap : s2 = t
              · rw [hcap] at hdest
                rw [moveAbs_capture_ally f src dest t c pr c2 p2 hsrc hsd hdest]
                simp [hsrc, hdest, hsd, hcap, Except.isOk, Except.toBool]
              · rw [moveAbs_capture_isOk f src dest t c pr c2 p2 s2 hsrc hsd hdest hcap]
                simp [hsrc, hdest, hcap]
                exact Or.inr ⟨c2, p2, s2, ⟨rfl, rfl, rfl⟩, hcap⟩
      · have hts2 : t ≠ s := hts
        have hst : ¬s = t := fun e => hts e.symm
        rw [moveAbs_not_owner f src dest t c pr s hsrc hts2]
        simp [hsrc, Except.isOk, Except.toBool, hst]

end absolute

namespace relative

theorem Board.peek_in (b : Board) (c : Coord) (h1 : c.1 < 9) (h2 : c.2 < 9) :
    Board.peek b c = some (b ⟨c.1, h1⟩ ⟨c.2, h2⟩) := by
  unfold Board.peek
  rw [dif_pos ⟨h1, h2⟩]

theorem Board.put_in (b : Board) (c : Coord) (p : Option Piece)
    (h1 : c.1 < 9) (h2 : c.2 < 9) :
    Board.put b c p = some (fun i j => if (i.val, j.val) = c then p else b i j) := by
  unfold Board.put
  rw [if_pos ⟨h1, h2⟩]

theorem relAt_in (b : Board) (c : Coord) (h1 : c.1 < 9) (h2 : c.2 < 9) :
    relAt b c = b ⟨c.1, h1⟩ ⟨c.2, h2⟩ := by
  unfold relAt
  rw [Board.peek_in b c h1 h2]

theorem moveRel_empty_src (f : Field) (src dest : Coord) (t : Side)
    (hs1 : src.1 < 9) (hs2 : src.2 < 9)
    (hsrc : relAt f.current_board src = none) :
    f.move_nontam_piece_from_src_to_dest_while_taking_opponent_piece_if_needed src dest t =
      some (Except.error "src does not contain a piece") := by
  have hb : f.current_board ⟨src.1, hs1⟩ ⟨src.2, hs2⟩ = none := by
    rw [← relAt_in f.current_board src hs1 hs2]; exact hsrc
  simp [Field.move_nontam_piece_from_src_to_dest_while_taking_opponent_piece_if_needed,
    Board.peek_in f.current_board src hs1 hs2, hb]


theorem moveRel_tam_src (f : Field) (src dest : Coord) (t : Side)
    (hs1 : src.1 < 9) (hs2 : src.2 < 9)
    (hsrc : relAt f.current_board src = some Piece.Tam2) :
    f.move_nontam_piece_from_src_to_dest_while_taking_opponent_piece_if_needed src dest t =
      some (Except.error
        "Expected a NonTam2Piece to be present at the src, but found a Tam2") := by
  have hb : f.current_board ⟨src.1, hs1⟩ ⟨src.2, hs2⟩ = some Piece.Tam2 := by
    rw [← relAt_in f.current_board src hs1 hs2]; exact hsrc
  simp [Field.move_nontam_piece_from_src_to_dest_while_taking_opponent_piece_if_needed,
    Board.peek_in f.current_board src hs1 hs2, hb]

theorem moveRel_not_owner (f : Field) (src dest : Coord) (t : Side)
    (c : Color) (pr : Profession) (s : Side)
    (hs1 : src.1 < 9) (hs2 : src.2 < 9)
    (hsrc : relAt f.current_board src = some (Piece.NonTam2Piece c pr s)) (hts : t ≠ s) :
    f.move_nontam_piece_from_src_to_dest_while_taking_opponent_piece_if_needed src dest t =
      some (Except.error "Found the opponent piece at the src") := by
  have hb : f.current_board ⟨src.1, hs1⟩ ⟨src.2, hs2⟩ = some (Piece.NonTam2Piece c pr s) := by
    rw [← relAt_in f.current_board src hs1 hs2]; exact hsrc
  simp [Field.move_nontam_piece_from_src_to_dest_while_taking_opponent_piece_if_needed,
    Board.peek_in f.current_board src hs1 hs2, hb, hts]

theorem moveRel_capture_tam (f : Field) (src dest : Coord) (t : Side)
    (c : Color) (pr : Profession)
    (hs1 : src.1 < 9) (hs2 : src.2 < 9) (hd1 : dest.1 < 9) (hd2 : dest.2 < 9)
    (hsrc : relAt f.current_board src = some (Piece.NonTam2Piece c pr t))
    (hdest : relAt f.current_board dest = some Piece.Tam2) :
    f.move_nontam_piece_from_src_to_dest_while_taking_opponent_piece_if_needed src dest t =
      some (Except.error "Tried to capture a Tam2") := by
  have hbs : f.current_board ⟨src.1, hs1⟩ ⟨src.2, hs2⟩ = some (Piece.NonTam2Piece c pr t) := by
    rw [← relAt_in f.current_board src hs1 hs2]; exact hsrc
  have hbd : f.current_board ⟨dest.1, hd1⟩ ⟨dest.2, hd2⟩ = some Piece.Tam2 := by
    rw [← relAt_in f.current_board dest hd1 hd2]; exact hdest
  simp [Field.move_nontam_piece_from_src_to_dest_while_taking_opponent_piece_if_needed,
    Board.peek_in f.current_board src hs1 hs2, hbs,
    Board.peek_in f.current_board dest hd1 hd2, hbd,
    Board.put_in f.current_board dest _ hd1 hd2]

theorem moveRel_capture_ally (f : Field) (src dest : Coord) (t : Side)
    (c : Color) (pr : Profession) (c2 : Color) (p2 : Profession)
    (hs1 : src.1 < 9) (hs2 : src.2 < 9) (hd1 : dest.1 < 9) (hd2 : dest.2 < 9)
    (hsrc : relAt f.current_board src = some (Piece.NonTam2Piece c pr t))
    (hdest : relAt f.current_board dest = some (Piece.NonTam2Piece c2 p2 t)) :
    f.move_nontam_piece_from_src_to_dest_while_taking_opponent_piece_if_needed src dest t =
      some (Except.error "Tried to capture an ally") := by
  have hbs : f.current_board ⟨src.1, hs1⟩ ⟨src.2, hs2⟩ = some (Piece.NonTam2Piece c pr t) := by
    rw [← relAt_in f.current_board src hs1 hs2]; exact hsrc
  have hbd : f.current_board ⟨dest.1, hd1⟩ ⟨dest.2, hd2⟩ = some (Piece.NonTam2Piece c2 p2 t) := by
    rw [← relAt_in f.current_board dest hd1 hd2]; exact hdest
  simp [Field.move_nontam_piece_from_src_to_dest_while_taking_opponent_piece_if_needed,
    Board.peek_in f.current_board src hs1 hs2, hbs,
    Board.peek_in f.current_board dest hd1 hd2, hbd,
    Board.put_in f.current_board dest _ hd1 hd2]

theorem moveRel_empty_dest_isOk (f : Field) (src dest : Coord) (t : Side)
    (c : Color) (pr : Profession)
    (hs1 : src.1 < 9) (hs2 : src.2 < 9) (hd1 : dest.1 < 9) (hd2 : dest.2 < 9)
    (hsrc : relAt f.current_board src = some (Piece.NonTam2Piece c pr t))
    (hdest : relAt f.current_board dest = none) :
    ∃ f2, f.move_nontam_piece_from_src_to_dest_while_taking_opponent_piece_if_needed
      src dest t = some (Except.ok f2) := by
  have hbs : f.current_board ⟨src.1, hs1⟩ ⟨src.2, hs2⟩ = some (Piece.NonTam2Piece c pr t) := by
    rw [← relAt_in f.current_board src hs1 hs2]; exact hsrc
  have hbd : f.current_board ⟨dest.1, hd1⟩ ⟨dest.2, hd2⟩ = none := by
    rw [← relAt_in f.current_board dest hd1 hd2]; exact hdest
  simp [Field.move_nontam_piece_from_src_to_dest_while_taking_opponent_piece_if_needed,
    Board.peek_in f.current_board src hs1 hs2, hbs,
    Board.peek_in f.current_board dest hd1 hd2, hbd,
    Board.put_in f.current_board dest _ hd1 hd2]

theorem moveRel_capture_isOk (f : Field) (src dest : Coord) (t : Side)
    (c : Color) (pr : Profession) (c2 : Color) (p2 : Profession) (s2 : Side)
    (hs1 : src.1 < 9) (hs2 : src.2 < 9) (hd1 : dest.1 < 9) (hd2 : dest.2 < 9)
    (hsrc : relAt f.current_board src = some (Piece.NonTam2Piece c pr t))
    (hdest : relAt f.current_board dest = some (Piece.NonTam2Piece c2 p2 s2))
    (hs2t : s2 ≠ t) :
    ∃ f2, f.move_nontam_piece_from_src_to_dest_while_taking_opponent_piece_if_needed
      src dest t = some (Except.ok f2) := by
  have hbs : f.current_board ⟨src.1, hs1⟩ ⟨src.2, hs2⟩ = some (Piece.NonTam2Piece c pr t) := by
    rw [← relAt_in f.current_board src hs1 hs2]; exact hsrc
  have hbd : f.current_board ⟨dest.1, hd1⟩ ⟨dest.2, hd2⟩ = some (Piece.NonTam2Piece c2 p2 s2) := by
    rw [← relAt_in f.current_board dest hd1 hd2]; exact hdest
  cases t <;>
    simp [Field.move_nontam_piece_from_src_to_dest_while_taking_opponent_piece_if_needed,
      Board.peek_in f.current_board src hs1 hs2, hbs,
      Board.peek_in f.current_board dest hd1 hd2, hbd,
      Board.put_in f.current_board dest _ hd1 hd2, hs2t]


theorem moveRel_isOk_iff (f : Field) (src dest : Coord) (t : Side)
    (hs1 : src.1 < 9) (hs2 : src.2 < 9) (hd1 : dest.1 < 9) (hd2 : dest.2 < 9) :
    (∃ f2, f.move_nontam_piece_from_src_to_dest_while_taking_opponent_piece_if_needed
        src dest t = some (Except.ok f2)) ↔
      ∃ c pr, relAt f.current_board src = some (Piece.NonTam2Piece c pr t) ∧
        (relAt f.current_board dest = none ∨
         ∃ c2 p2 s2, relAt f.current_board dest = some (Piece.NonTam2Piece c2 p2 s2) ∧
           s2 ≠ t) := by
  cases hsrc : relAt f.current_board src with
  | none =>
    rw [moveRel_empty_src f src dest t hs1 hs2 hsrc]
    simp [hsrc]
  | some piece =>
    cases piece with
    | Tam2 =>
      rw [moveRel_tam_src f src dest t hs1 hs2 hsrc]
      simp [hsrc]
    | NonTam2Piece c pr s =>
      by_cases hts : t = s
      · subst hts
        cases hdest : relAt f.current_board dest with
        | none =>
          refine iff_of_true ?_ ⟨c, pr, rfl, Or.inl rfl⟩
          exact moveRel_empty_dest_isOk f src dest t c pr hs1 hs2 hd1 hd2 hsrc hdest
        | some captured =>
          cases captured with
          | Tam2 =>
            rw [moveRel_capture_tam f src dest t c pr hs1 hs2 hd1 hd2 hsrc hdest]
            simp [hsrc, hdest]
          | NonTam2Piece c2 p2 s2 =>
            by_cases hcap : s2 = t
            · rw [moveRel_capture_ally f src dest t c pr c2 p2 hs1 hs2 hd1 hd2 hsrc
                  (hcap ▸ hdest)]
              simp [hcap]
            · refine iff_of_true ?_ ⟨c, pr, rfl, Or.inr ⟨c2, p2, s2, rfl, hcap⟩⟩
              exact moveRel_capture_isOk f src dest t c pr c2 p2 s2
                hs1 hs2 hd1 hd2 hsrc hdest hcap
      · have hst : ¬s = t := fun e => hts e.symm
        rw [moveRel_not_owner f src dest t c pr s hs1 hs2 hsrc hts]
        simp [hsrc, hst]

end relative

/-- Example field for claim C4: a single IA-side pawn at square AI-K. -/
def exC4Field : absolute.Field :=
  { board := fun c =>
      if c = (absolute.Row.AI, absolute.Column.K) then
        some (absolute.Piece.NonTam2Piece Color.Kok1 Profession.Kauk2 AbsoluteSide.IASide)
      else none,
    a_side_hop1zuo1 := [],
    ia_side_hop1zuo1 := [] }

/-- Example relative field for claim C4: an empty board and empty hands. -/
def exC4RelField : relative.Field :=
  { current_board := fun _ _ => none,
    hop1zuo1of_upward := [],
    hop1zuo1of_downward := [] }

/-- Counterexample to claim C4 as stated: with `src = dest` holding a piece
owned by the acting side, the absolute operation succeeds although the
claim demands a `CannotCaptureOwn` error, because the absolute
implementation removes the source piece before reading `dest`. -/
theorem claim_C4_counterexample :
    exC4Field.board (absolute.Row.AI, absolute.Column.K) =
      some (absolute.Piece.NonTam2Piece Color.Kok1 Profession.Kauk2 AbsoluteSide.IASide) ∧
    (exC4Field.move_nontam_piece_from_src_to_dest_while_taking_opponent_piece_if_needed
        (absolute.Row.AI, absolute.Column.K) (absolute.Row.AI, absolute.Column.K)
        AbsoluteSide.IASide).isOk = true := by
  constructor
  · rfl
  · decide

/-- Claim C4 (amended): Operation A fails exactly under the claimed
conditions, checked in the claimed order, except that in the absolute
representation the two destination conditions only apply when
`dest ≠ src`, because the source piece is removed before `dest` is read;
in the relative representation (with in-range coordinates) the original
conditions hold verbatim.  The operation is a pure function returning a
new `Field`, so a failure commits no state change. -/
theorem claim_C4 :
    (∀ (f : absolute.Field) (src dest : absolute.Coord) (t : AbsoluteSide),
      (f.board src = none →
        f.move_nontam_piece_from_src_to_dest_while_taking_opponent_piece_if_needed src dest t =
          Except.error "src does not contain a piece") ∧
      (f.board src = some absolute.Piece.Tam2 →
        f.move_nontam_piece_from_src_to_dest_while_taking_opponent_piece_if_needed src dest t =
          Except.error "Expected a NonTam2Piece to be present at the src, but found a Tam2") ∧
      (∀ c pr s, f.board src = some (absolute.Piece.NonTam2Piece c pr s) → t ≠ s →
        f.move_nontam_piece_from_src_to_dest_while_taking_opponent_piece_if_needed src dest t =
          Except.error "Found the opponent piece at the src") ∧
      (∀ c pr, f.board src = some (absolute.Piece.NonTam2Piece c pr t) → src ≠ dest →
        f.board dest = some absolute.Piece.Tam2 →
        f.move_nontam_piece_from_src_to_dest_while_taking_opponent_piece_if_needed src dest t =
          Except.error "Tried to capture a Tam2") ∧
      (∀ c pr c2 p2, f.board src = some (absolute.Piece.NonTam2Piece c pr t) → src ≠ dest →
        f.board dest = some (absolute.Piece.NonTam2Piece c2 p2 t) →
        f.move_nontam_piece_from_src_to_dest_while_taking_opponent_piece_if_needed src dest t =
          Except.error "Tried to capture an ally") ∧
      ((f.move_nontam_piece_from_src_to_dest_while_taking_opponent_piece_if_needed
          src dest t).isOk = true ↔
        ∃ c pr, f.board src = some (absolute.Piece.NonTam2Piece c pr t) ∧
          (src = dest ∨ f.board dest = none ∨
            ∃ c2 p2 s2, f.board dest = some (absolute.Piece.NonTam2Piece c2 p2 s2) ∧
              s2 ≠ t))) ∧
    (∀ (f : relative.Field) (src dest : relative.Coord) (t : relative.Side),
      ∀ (hs1 : src.1 < 9) (hs2 : src.2 < 9) (hd1 : dest.1 < 9) (hd2 : dest.2 < 9),
      (relative.relAt f.current_board src = none →
        f.move_nontam_piece_from_src_to_dest_while_taking_opponent_piece_if_needed src dest t =
          some (Except.error "src does not contain a piece")) ∧
      (relative.relAt f.current_board src = some relative.Piece.Tam2 →
        f.move_nontam_piece_from_src_to_dest_while_taking_opponent_piece_if_needed src dest t =
          some (Except.error
            "Expected a NonTam2Piece to be present at the src, but found a Tam2")) ∧
      (∀ c pr s, relative.relAt f.current_board src =
          some (relative.Piece.NonTam2Piece c pr s) → t ≠ s →
        f.move_nontam_piece_from_src_to_dest_while_taking_opponent_piece_if_needed src dest t =
          some (Except.error "Found the opponent piece at the src")) ∧
      (∀ c pr, relative.relAt f.current_board src =
          some (relative.Piece.NonTam2Piece c pr t) →
        relative.relAt f.current_board dest = some relative.Piece.Tam2 →
        f.move_nontam_piece_from_src_to_dest_while_taking_opponent_piece_if_needed src dest t =
          some (Except.error "Tried to capture a Tam2")) ∧
      (∀ c pr c2 p2, relative.relAt f.current_board src =
          some (relative.Piece.NonTam2Piece c pr t) →
        relative.relAt f.current_board dest = some (relative.Piece.NonTam2Piece c2 p2 t) →
        f.move_nontam_piece_from_src_to_dest_while_taking_opponent_piece_if_needed src dest t =
          some (Except.error "Tried to capture an ally")) ∧
      ((∃ f2, f.move_nontam_piece_from_src_to_dest_while_taking_opponent_piece_if_needed
          src dest t = some (Except.ok f2)) ↔
        ∃ c pr, relative.relAt f.current_board src =
            some (relative.Piece.NonTam2Piece c pr t) ∧
          (relative.relAt f.current_board dest = none ∨
            ∃ c2 p2 s2, relative.relAt f.current_board dest =
                some (relative.Piece.NonTam2Piece c2 p2 s2) ∧ s2 ≠ t))) := by
  constructor
  · intro f src dest t
    refine ⟨absolute.moveAbs_empty_src f src dest t,
      absolute.moveAbs_tam_src f src dest t,
      fun c pr s h hts => absolute.moveAbs_not_owner f src dest t c pr s h hts,
      fun c pr h hne hd => absolute.moveAbs_capture_tam f src dest t c pr h hne hd,
      fun c pr c2 p2 h hne hd => absolute.moveAbs_capture_ally f src dest t c pr c2 p2 h hne hd,
      absolute.moveAbs_isOk_iff f src dest t⟩
  · intro f src dest t hs1 hs2 hd1 hd2
    refine ⟨fun h => relative.moveRel_empty_src f src dest t hs1 hs2 h,
      fun h => relative.moveRel_tam_src f src dest t hs1 hs2 h,
      fun c pr s h hts => relative.moveRel_not_owner f src dest t c pr s hs1 hs2 h hts,
      fun c pr h hd => relative.moveRel_capture_tam f src dest t c pr hs1 hs2 hd1 hd2 h hd,
      fun c pr c2 p2 h hd =>
        relative.moveRel_capture_ally f src dest t c pr c2 p2 hs1 hs2 hd1 hd2 h hd,
      relative.moveRel_isOk_iff f src dest t hs1 hs2 hd1 hd2⟩

/-- Witness for C4 at concrete inputs: an empty source square yields the
empty-source error in both representations. -/
theorem claim_C4_witness :
    (exC4Field.move_nontam_piece_from_src_to_dest_while_taking_opponent_piece_if_needed
        (absolute.Row.A, absolute.Column.K) (absolute.Row.E, absolute.Column.K)
        AbsoluteSide.IASide = Except.error "src does not contain a piece") ∧
    (exC4RelField.move_nontam_piece_from_src_to_dest_while_taking_opponent_piece_if_needed
        (0, 0) (1, 1) relative.Side.Upward =
      some (Except.error "src does not contain a piece")) :=
  ⟨(claim_C4.1 exC4Field (absolute.Row.A, absolute.Column.K)
      (absolute.Row.E, absolute.Column.K) AbsoluteSide.IASide).1 (by decide),
   ((claim_C4.2 exC4RelField (0, 0) (1, 1) relative.Side.Upward
      (by decide) (by decide) (by decide) (by decide)).1 (by decide))⟩

theorem position_eq_none_iff {α : Type} [DecidableEq α] (a : α) (l : List α) :
    position (fun x => x == a) l = none ↔ a ∉ l := by
  induction l with
  | nil => simp [position]
  | cons x t ih =>
    by_cases hx : x = a
    · subst hx
      simp [position]
    · have hb : (x == a) = false := beq_false_of_ne hx
      simp [position, hb, ih]
      exact fun _ e => hx e.symm

theorem position_eraseIdx_erase {α : Type} [DecidableEq α] (a : α) (l : List α) :
    ∀ i : Nat, position (fun x => x == a) l = some i → l.eraseIdx i = l.erase a := by
  induction l with
  | nil => intro i h; simp [position] at h
  | cons x t ih =>
    intro i h
    by_cases hx : x = a
    · subst hx
      unfold position at h
      rw [if_pos (beq_self_eq_true x)] at h
      have hi : i = 0 := (Option.some.inj h).symm
      subst hi
      rw [List.eraseIdx_zero, List.erase_cons_head]
      rfl
    · have hb : (x == a) = false := beq_false_of_ne hx
      unfold position at h
      rw [hb] at h
      simp only [Bool.false_eq_true, if_false] at h
      cases hp : position (fun x => x == a) t with
      | none => rw [hp] at h; simp at h
      | some j =>
        rw [hp] at h
        simp only [Option.map_some'] at h
        have hi : i = j + 1 := (Option.some.inj h).symm
        subst hi
        rw [List.eraseIdx_cons_succ, List.erase_cons, if_neg (by simp [hb])]
        rw [ih j hp]

namespace absolute

theorem parAbs_none_iff (f : Field) (color : Color) (prof : Profession)
    (side : AbsoluteSide) (dest : Coord) :
    f.search_from_hop1zuo1_and_parachute_at color prof side dest = none ↔
      (ColorAndProf.mk color prof ∉ hop1zuo1_of side f ∨ (f.board dest).isSome = true) := by
  cases side with
  | ASide =>
    cases hpos : position (fun x => x == ColorAndProf.mk color prof) f.a_side_hop1zuo1 with
    | none =>
      have hmem := (position_eq_none_iff _ _).mp hpos
      refine iff_of_true ?_ (Or.inl hmem)
      simp [Field.search_from_hop1zuo1_and_parachute_at, hpos]
    | some i =>
      have hmem : ColorAndProf.mk color prof ∈ f.a_side_hop1zuo1 := by
        by_contra hh
        rw [(position_eq_none_iff _ _).mpr hh] at hpos
        exact Option.noConfusion hpos
      by_cases hocc : (f.board dest).isSome = true
      · refine iff_of_true ?_ (Or.inr hocc)
        simp [Field.search_from_hop1zuo1_and_parachute_at, hpos, hocc]
      · refine iff_of_false ?_ ?_
        · simp [Field.search_from_hop1zuo1_and_parachute_at, hpos, hocc]
        · intro hor
          rcases hor with h | h
          · exact h hmem
          · exact hocc h
  | IASide =>
    cases hpos : position (fun x => x == ColorAndProf.mk color prof) f.ia_side_hop1zuo1 with
    | none =>
      have hmem := (position_eq_none_iff _ _).mp hpos
      refine iff_of_true ?_ (Or.inl hmem)
      simp [Field.search_from_hop1zuo1_and_parachute_at, hpos]
    | some i =>
      have hmem : ColorAndProf.mk color prof ∈ f.ia_side_hop1zuo1 := by
        by_contra hh
        rw [(position_eq_none_iff _ _).mpr hh] at hpos
        exact Option.noConfusion hpos
      by_cases hocc : (f.board dest).isSome = true
      · refine iff_of_true ?_ (Or.inr hocc)
        simp [Field.search_from_hop1zuo1_and_parachute_at, hpos, hocc]
      · refine iff_of_false ?_ ?_
        · simp [Field.search_from_hop1zuo1_and_parachute_at, hpos, hocc]
        · intro hor
          rcases hor with h | h
          · exact h hmem
          · exact hocc h

theorem parAbs_some (f : Field) (color : Color) (prof : Profession)
    (side : AbsoluteSide) (dest : Coord) (f2 : Field)
    (h : f.search_from_hop1zuo1_and_parachute_at color prof side dest = some f2) :
    f.board dest = none ∧
    f2.board = Board.insertAt f.board dest (Piece.NonTam2Piece color prof side) ∧
    hop1zuo1_of side f2 = (hop1zuo1_of side f).erase (ColorAndProf.mk color prof) ∧
    (∀ s2, s2 ≠ side → hop1zuo1_of s2 f2 = hop1zuo1_of s2 f) := by
  cases side with
  | ASide =>
    simp only [Field.search_from_hop1zuo1_and_parachute_at] at h
    split at h
    · exact absurd h (by simp)
    · rename_i i hpos
      split at h
      · exact absurd h (by simp)
      · rename_i hocc
        have hf2 := Option.some.inj h
        have hempty : f.board dest = none := Option.not_isSome_iff_eq_none.mp hocc
        refine ⟨hempty, ?_, ?_, ?_⟩
        · rw [← hf2]
        · rw [← hf2]
          show f.a_side_hop1zuo1.eraseIdx i = _
          exact position_eraseIdx_erase (ColorAndProf.mk color prof) f.a_side_hop1zuo1 i hpos
        · intro s2 hs2
          cases s2 with
          | ASide => exact absurd rfl hs2
          | IASide => rw [← hf2]; rfl
  | IASide =>
    simp only [Field.search_from_hop1zuo1_and_parachute_at] at h
    split at h
    · exact absurd h (by simp)
    · rename_i i hpos
      split at h
      · exact absurd h (by simp)
      · rename_i hocc
        have hf2 := Option.some.inj h
        have hempty : f.board dest = none := Option.not_isSome_iff_eq_none.mp hocc
        refine ⟨hempty, ?_, ?_, ?_⟩
        · rw [← hf2]
        · rw [← hf2]
          show f.ia_side_hop1zuo1.eraseIdx i = _
          exact position_eraseIdx_erase (ColorAndProf.mk color prof) f.ia_side_hop1zuo1 i hpos
        · intro s2 hs2
          cases s2 with
          | IASide => exact absurd rfl hs2
          | ASide => rw [← hf2]; rfl

end absolute

theorem option_some_bind {α β : Type} (a : α) (g : α → Option β) :
    (some a >>= g) = g a := rfl

namespace relative

theorem parRel_up_none_iff (f : Field) (color : Color) (prof : Profession)
    (dest : Coord) (hd1 : dest.1 < 9) (hd2 : dest.2 < 9) :
    f.search_from_hop1zuo1_and_parachute_at color prof Side.Upward dest = some none ↔
      (NonTam2PieceUpward.mk color prof ∉ f.hop1zuo1of_upward ∨
        (relAt f.current_board dest).isSome = true) := by
  cases hpos : position (fun x => x == NonTam2PieceUpward.mk color prof)
      f.hop1zuo1of_upward with
  | none =>
    have hmem := (position_eq_none_iff _ _).mp hpos
    refine iff_of_true ?_ (Or.inl hmem)
    simp [Field.search_from_hop1zuo1_and_parachute_at, hpos]
  | some i =>
    have hmem : NonTam2PieceUpward.mk color prof ∈ f.hop1zuo1of_upward := by
      by_contra hh
      rw [(position_eq_none_iff _ _).mpr hh] at hpos
      exact Option.noConfusion hpos
    by_cases hocc : (relAt f.current_board dest).isSome = true
    · refine iff_of_true ?_ (Or.inr hocc)
      have hb : (f.current_board ⟨dest.1, hd1⟩ ⟨dest.2, hd2⟩).isSome = true := by
        rw [← relAt_in f.current_board dest hd1 hd2]; exact hocc
      simp [Field.search_from_hop1zuo1_and_parachute_at, hpos,
        Board.peek_in f.current_board dest hd1 hd2, hb]
    · refine iff_of_false ?_ ?_
      · have hb : ¬(f.current_board ⟨dest.1, hd1⟩ ⟨dest.2, hd2⟩).isSome = true := by
          rw [← relAt_in f.current_board dest hd1 hd2]; exact hocc
        simp [Field.search_from_hop1zuo1_and_parachute_at, hpos,
          Board.peek_in f.current_board dest hd1 hd2,
          Board.put_in f.current_board dest _ hd1 hd2, hb]
      · intro hor
        rcases hor with h | h
        · exact h hmem
        · exact hocc h

theorem parRel_down_none_iff (f : Field) (color : Color) (prof : Profession)
    (dest : Coord) (hd1 : dest.1 < 9) (hd2 : dest.2 < 9) :
    f.search_from_hop1zuo1_and_parachute_at color prof Side.Downward dest = some none ↔
      (NonTam2PieceDownward.mk color prof ∉ f.hop1zuo1of_downward ∨
        (relAt f.current_board dest).isSome = true) := by
  cases hpos : position (fun x => x == NonTam2PieceDownward.mk color prof)
      f.hop1zuo1of_downward with
  | none =>
    have hmem := (position_eq_none_iff _ _).mp hpos
    refine iff_of_true ?_ (Or.inl hmem)
    simp [Field.search_from_hop1zuo1_and_parachute_at, hpos]
  | some i =>
    have hmem : NonTam2PieceDownward.mk color prof ∈ f.hop1zuo1of_downward := by
      by_contra hh
      rw [(position_eq_none_iff _ _).mpr hh] at hpos
      exact Option.noConfusion hpos
    by_cases hocc : (relAt f.current_board dest).isSome = true
    · refine iff_of_true ?_ (Or.inr hocc)
      have hb : (f.current_board ⟨dest.1, hd1⟩ ⟨dest.2, hd2⟩).isSome = true := by
        rw [← relAt_in f.current_board dest hd1 hd2]; exact hocc
      simp [Field.search_from_hop1zuo1_and_parachute_at, hpos,
        Board.peek_in f.current_board dest hd1 hd2, hb]
    · refine iff_of_false ?_ ?_
      · have hb : ¬(f.current_board ⟨dest.1, hd1⟩ ⟨dest.2, hd2⟩).isSome = true := by
          rw [← relAt_in f.current_board dest hd1 hd2]; exact hocc
        simp [Field.search_from_hop1zuo1_and_parachute_at, hpos,
          Board.peek_in f.current_board dest hd1 hd2,
          Board.put_in f.current_board dest _ hd1 hd2, hb]
      · intro hor
        rcases hor with h | h
        · exact h hmem
        · exact hocc h

theorem parRel_up_some (f : Field) (color : Color) (prof : Profession)
    (dest : Coord) (hd1 : dest.1 < 9) (hd2 : dest.2 < 9) (f2 : Field)
    (h : f.search_from_hop1zuo1_and_parachute_at color prof Side.Upward dest =
      some (some f2)) :
    relAt f.current_board dest = none ∧
    f2.current_board = (fun i j => if (i.val, j.val) = dest then
      some (Piece.NonTam2Piece color prof Side.Upward) else f.current_board i j) ∧
    f2.hop1zuo1of_upward = f.hop1zuo1of_upward.erase (NonTam2PieceUpward.mk color prof) ∧
    f2.hop1zuo1of_downward = f.hop1zuo1of_downward := by
  simp only [Field.search_from_hop1zuo1_and_parachute_at] at h
  split at h
  · exact absurd h (by simp)
  · rename_i i hpos
    rw [Board.peek_in f.current_board dest hd1 hd2,
      Board.put_in f.current_board dest _ hd1 hd2] at h
    rw [option_some_bind] at h
    by_cases hocc : (f.current_board ⟨dest.1, hd1⟩ ⟨dest.2, hd2⟩).isSome = true
    · rw [if_pos hocc] at h
      exact absurd h (by simp)
    · rw [if_neg hocc] at h
      rw [option_some_bind] at h
      have hf2 := Option.some.inj (Option.some.inj h)
      have hempty : relAt f.current_board dest = none := by
        rw [relAt_in f.current_board dest hd1 hd2]
        exact Option.not_isSome_iff_eq_none.mp hocc
      refine ⟨hempty, ?_, ?_, ?_⟩
      · rw [← hf2]
      · rw [← hf2]
        show f.hop1zuo1of_upward.eraseIdx i = _
        exact position_eraseIdx_erase (NonTam2PieceUpward.mk color prof)
          f.hop1zuo1of_upward i hpos
      · rw [← hf2]

theorem parRel_down_some (f : Field) (color : Color) (prof : Profession)
    (dest : Coord) (hd1 : dest.1 < 9) (hd2 : dest.2 < 9) (f2 : Field)
    (h : f.search_from_hop1zuo1_and_parachute_at color prof Side.Downward dest =
      some (some f2)) :
    relAt f.current_board dest = none ∧
    f2.current_board = (fun i j => if (i.val, j.val) = dest then
      some (Piece.NonTam2Piece color prof Side.Downward) else f.current_board i j) ∧
    f2.hop1zuo1of_downward = f.hop1zuo1of_downward.erase (NonTam2PieceDownward.mk color prof) ∧
    f2.hop1zuo1of_upward = f.hop1zuo1of_upward := by
  simp only [Field.search_from_hop1zuo1_and_parachute_at] at h
  split at h
  · exact absurd h (by simp)
  · rename_i i hpos
    rw [Board.peek_in f.current_board dest hd1 hd2,
      Board.put_in f.current_board dest _ hd1 hd2] at h
    rw [option_some_bind] at h
    by_cases hocc : (f.current_board ⟨dest.1, hd1⟩ ⟨dest.2, hd2⟩).isSome = true
    · rw [if_pos hocc] at h
      exact absurd h (by simp)
    · rw [if_neg hocc] at h
      rw [option_some_bind] at h
      have hf2 := Option.some.inj (Option.some.inj h)
      have hempty : relAt f.current_board dest = none := by
        rw [relAt_in f.current_board dest hd1 hd2]
        exact Option.not_isSome_iff_eq_none.mp hocc
      refine ⟨hempty, ?_, ?_, ?_⟩
      · rw [← hf2]
      · rw [← hf2]
        show f.hop1zuo1of_downward.eraseIdx i = _
        exact position_eraseIdx_erase (NonTam2PieceDownward.mk color prof)
          f.hop1zuo1of_downward i hpos
      · rw [← hf2]

end relative

/-- Claim C5: the parachute operation returns none exactly when the hand
has no matching entry or the destination is occupied; otherwise it removes
exactly one matching hand entry (the resulting hand is the old hand with
one occurrence of the entry erased), places a newly created owned piece at
`dest`, and leaves every other square and the other hand unchanged — in
both the absolute representation and the relative representation (with
in-range destination coordinates).  The operation is pure, so the input
field is never modified. -/
theorem claim_C5 :
    (∀ (f : absolute.Field) (color : Color) (prof : Profession)
        (side : AbsoluteSide) (dest : absolute.Coord),
      (f.search_from_hop1zuo1_and_parachute_at color prof side dest = none ↔
        (ColorAndProf.mk color prof ∉ absolute.hop1zuo1_of side f ∨
          (f.board dest).isSome = true)) ∧
      (∀ f2, f.search_from_hop1zuo1_and_parachute_at color prof side dest = some f2 →
        f2.board dest = some (absolute.Piece.NonTam2Piece color prof side) ∧
        (∀ c, c ≠ dest → f2.board c = f.board c) ∧
        absolute.hop1zuo1_of side f2 =
          (absolute.hop1zuo1_of side f).erase (ColorAndProf.mk color prof) ∧
        (∀ s2, s2 ≠ side → absolute.hop1zuo1_of s2 f2 = absolute.hop1zuo1_of s2 f))) ∧
    (∀ (f : relative.Field) (color : Color) (prof : Profession) (dest : relative.Coord),
      ∀ (hd1 : dest.1 < 9) (hd2 : dest.2 < 9),
      (f.search_from_hop1zuo1_and_parachute_at color prof relative.Side.Upward dest =
          some none ↔
        (relative.NonTam2PieceUpward.mk color prof ∉ f.hop1zuo1of_upward ∨
          (relative.relAt f.current_board dest).isSome = true)) ∧
      (∀ f2, f.search_from_hop1zuo1_and_parachute_at color prof relative.Side.Upward dest =
          some (some f2) →
        relative.relAt f2.current_board dest =
          some (relative.Piece.NonTam2Piece color prof relative.Side.Upward) ∧
        (∀ i j : Fin 9, (i.val, j.val) ≠ dest → f2.current_board i j = f.current_board i j) ∧
        f2.hop1zuo1of_upward =
          f.hop1zuo1of_upward.erase (relative.NonTam2PieceUpward.mk color prof) ∧
        f2.hop1zuo1of_downward = f.hop1zuo1of_downward) ∧
      (f.search_from_hop1zuo1_and_parachute_at color prof relative.Side.Downward dest =
          some none ↔
        (relative.NonTam2PieceDownward.mk color prof ∉ f.hop1zuo1of_downward ∨
          (relative.relAt f.current_board dest).isSome = true)) ∧
      (∀ f2, f.search_from_hop1zuo1_and_parachute_at color prof relative.Side.Downward dest =
          some (some f2) →
        relative.relAt f2.current_board dest =
          some (relative.Piece.NonTam2Piece color prof relative.Side.Downward) ∧
        (∀ i j : Fin 9, (i.val, j.val) ≠ dest → f2.current_board i j = f.current_board i j) ∧
        f2.hop1zuo1of_downward =
          f.hop1zuo1of_downward.erase (relative.NonTam2PieceDownward.mk color prof) ∧
        f2.hop1zuo1of_upward = f.hop1zuo1of_upward)) := by
  constructor
  · intro f color prof side dest
    refine ⟨absolute.parAbs_none_iff f color prof side dest, ?_⟩
    intro f2 h
    obtain ⟨hempty, hboard, hhand, hother⟩ :=
      absolute.parAbs_some f color prof side dest f2 h
    refine ⟨?_, ?_, hhand, hother⟩
    · rw [hboard]
      unfold absolute.Board.insertAt
      rw [if_pos rfl]
    · intro c hc
      rw [hboard]
      unfold absolute.Board.insertAt
      rw [if_neg hc]
  · intro f color prof dest hd1 hd2
    refine ⟨relative.parRel_up_none_iff f color prof dest hd1 hd2, ?_,
      relative.parRel_down_none_iff f color prof dest hd1 hd2, ?_⟩
    · intro f2 h
      obtain ⟨hempty, hboard, hhand, hother⟩ :=
        relative.parRel_up_some f color prof dest hd1 hd2 f2 h
      refine ⟨?_, ?_, hhand, hother⟩
      · rw [relative.relAt_in f2.current_board dest hd1 hd2, hboard]
        show (if ((dest.1, dest.2) : Nat × Nat) = dest then
            some (relative.Piece.NonTam2Piece color prof relative.Side.Upward)
          else f.current_board ⟨dest.1, hd1⟩ ⟨dest.2, hd2⟩) =
          some (relative.Piece.NonTam2Piece color prof relative.Side.Upward)
        exact if_pos rfl
      · intro i j hij
        rw [hboard]
        show (if ((i.val, j.val) : Nat × Nat) = dest then
            some (relative.Piece.NonTam2Piece color prof relative.Side.Upward)
          else f.current_board i j) = f.current_board i j
        exact if_neg hij
    · intro f2 h
      obtain ⟨hempty, hboard, hhand, hother⟩ :=
        relative.parRel_down_some f color prof dest hd1 hd2 f2 h
      refine ⟨?_, ?_, hhand, hother⟩
      · rw [relative.relAt_in f2.current_board dest hd1 hd2, hboard]
        show (if ((dest.1, dest.2) : Nat × Nat) = dest then
            some (relative.Piece.NonTam2Piece color prof relative.Side.Downward)
          else f.current_board ⟨dest.1, hd1⟩ ⟨dest.2, hd2⟩) =
          some (relative.Piece.NonTam2Piece color prof relative.Side.Downward)
        exact if_pos rfl
      · intro i j hij
        rw [hboard]
        show (if ((i.val, j.val) : Nat × Nat) = dest then
            some (relative.Piece.NonTam2Piece color prof relative.Side.Downward)
          else f.current_board i j) = f.current_board i j
        exact if_neg hij

/-- Witness for C5: with empty hands, parachuting at an in-range square
returns none. -/
theorem claim_C5_witness :
    exC4RelField.search_from_hop1zuo1_and_parachute_at Color.Kok1 Profession.Kauk2
      relative.Side.Upward (3, 4) = some none :=
  ((claim_C5.2 exC4RelField Color.Kok1 Profession.Kauk2 (3, 4)
      (by decide) (by decide)).1).mpr (Or.inl (by decide))

namespace absolute

/-- The number of neutral pieces (Tam2) on an absolute board. -/
def countTam2 (b : Board) : Nat :=
  (Finset.univ.filter (fun c : Coord => b c = some Piece.Tam2)).card

/-- One successful application of Operation A or of the parachute
operation, in the absolute representation. -/
def FieldStep (f f2 : Field) : Prop :=
  (∃ src dest t,
    f.move_nontam_piece_from_src_to_dest_while_taking_opponent_piece_if_needed src dest t =
      Except.ok f2) ∨
  (∃ color prof side dest,
    f.search_from_hop1zuo1_and_parachute_at color prof side dest = some f2)

theorem countTam2_congr (b1 b2 : Board)
    (h : ∀ x : Coord, b1 x = some Piece.Tam2 ↔ b2 x = some Piece.Tam2) :
    countTam2 b1 = countTam2 b2 := by
  unfold countTam2
  congr 1
  exact Finset.filter_congr (fun x _ => h x)

theorem countTam2_move (f : Field) (src dest : Coord) (t : AbsoluteSide) (f2 : Field)
    (h : f.move_nontam_piece_from_src_to_dest_while_taking_opponent_piece_if_needed
      src dest t = Except.ok f2) :
    countTam2 f2.board = countTam2 f.board := by
  obtain ⟨c, pr, hsrc, hboard, hcap⟩ := moveAbs_ok_characterize f src dest t f2 h
  refine countTam2_congr f2.board f.board ?_
  intro x
  rw [hboard]
  unfold Board.insertAt Board.removeAt
  unfold Board.removeAt at hcap
  by_cases hx : x = dest
  · subst hx
    rw [if_pos rfl]
    constructor
    · intro hh
      exact absurd hh (by simp)
    · intro hh
      by_cases hxs : x = src
      · rw [hxs] at hh
        rw [hsrc] at hh
        exact absurd hh (by simp)
      · exact absurd hh (by
          by_cases hds : x = src
          · exact absurd hds hxs
          · intro hh2
            apply hcap
            rw [if_neg (fun e : (x : Coord) = src => hxs e)]
            exact hh2)
  · rw [if_neg hx]
    by_cases hxs : x = src
    · subst hxs
      rw [if_pos rfl, hsrc]
      simp
    · rw [if_neg hxs]

theorem countTam2_parachute (f : Field) (color : Color) (prof : Profession)
    (side : AbsoluteSide) (dest : Coord) (f2 : Field)
    (h : f.search_from_hop1zuo1_and_parachute_at color prof side dest = some f2) :
    countTam2 f2.board = countTam2 f.board := by
  obtain ⟨hempty, hboard, _, _⟩ := parAbs_some f color prof side dest f2 h
  refine countTam2_congr f2.board f.board ?_
  intro x
  rw [hboard]
  unfold Board.insertAt
  by_cases hx : x = dest
  · subst hx
    rw [if_pos rfl, hempty]
    simp
  · rw [if_neg hx]

theorem countTam2_step (f f2 : Field) (h : FieldStep f f2) :
    countTam2 f2.board = countTam2 f.board := by
  rcases h with ⟨src, dest, t, h⟩ | ⟨color, prof, side, dest, h⟩
  · exact countTam2_move f src dest t f2 h
  · exact countTam2_parachute f color prof side dest f2 h

end absolute

/-- Example field for claim C6: the neutral piece at O-Z and one pawn. -/
def exC6Field : absolute.Field :=
  { board := fun c =>
      if c = (absolute.Row.O, absolute.Column.Z) then some absolute.Piece.Tam2
      else if c = (absolute.Row.AI, absolute.Column.K) then
        some (absolute.Piece.NonTam2Piece Color.Kok1 Profession.Kauk2 AbsoluteSide.IASide)
      else none,
    a_side_hop1zuo1 := [],
    ia_side_hop1zuo1 := [] }

/-- Claim C6: every successful Operation A and every successful parachute
placement leaves the number of neutral pieces on the board unchanged, so
along any sequence of such operations a board that started with exactly
one neutral piece still has exactly one. -/
theorem claim_C6 :
    (∀ (f : absolute.Field) (src dest : absolute.Coord) (t : AbsoluteSide)
        (f2 : absolute.Field),
      f.move_nontam_piece_from_src_to_dest_while_taking_opponent_piece_if_needed
        src dest t = Except.ok f2 →
      absolute.countTam2 f2.board = absolute.countTam2 f.board) ∧
    (∀ (f : absolute.Field) (color : Color) (prof : Profession) (side : AbsoluteSide)
        (dest : absolute.Coord) (f2 : absolute.Field),
      f.search_from_hop1zuo1_and_parachute_at color prof side dest = some f2 →
      absolute.countTam2 f2.board = absolute.countTam2 f.board) ∧
    (∀ f f2 : absolute.Field, Relation.ReflTransGen absolute.FieldStep f f2 →
      absolute.countTam2 f.board = 1 → absolute.countTam2 f2.board = 1) := by
  refine ⟨absolute.countTam2_move, absolute.countTam2_parachute, ?_⟩
  intro f f2 hchain
  induction hchain with
  | refl => exact fun h => h
  | tail _ hstep ih =>
    intro h1
    rw [absolute.countTam2_step _ _ hstep]
    exact ih h1

/-- Witness for C6: the example field has exactly one neutral piece, and
the empty sequence of operations preserves that. -/
theorem claim_C6_witness : absolute.countTam2 exC6Field.board = 1 :=
  claim_C6.2.2 exC6Field exC6Field Relation.ReflTransGen.refl (by decide)

/-- Counterexample to C7 as stated: the dense board's `peek` has no result
(it is an index-out-of-range panic, modelled by `none`) at coordinate
`[9,0]`, and `distance` has no result (an `i32` conversion panic) at a
coordinate not fitting in `i32`. -/
theorem claim_C7_counterexample :
    relative.Board.peek (fun _ _ => none) (9, 0) = none ∧
    relative.distance (2147483648, 0) (0, 0) = none := by
  constructor
  · decide
  · decide

/-- Claim C7 (amended): the sparse-board operations are total by
construction; the dense-board `peek`/`pop`/`put` return a result for every
in-range coordinate (both indices below 9), `relative::distance` returns a
result for every pair of in-range coordinates, and `absolute::distance`
returns a result for every pair of the 81 absolute coordinates. -/
theorem claim_C7 :
    (∀ (b : relative.Board) (i j : Nat), i < 9 → j < 9 →
      (relative.Board.peek b (i, j)).isSome = true) ∧
    (∀ (b : relative.Board) (i j : Nat), i < 9 → j < 9 →
      (relative.Board.pop b (i, j)).isSome = true) ∧
    (∀ (b : relative.Board) (p : Option relative.Piece) (i j : Nat), i < 9 → j < 9 →
      (relative.Board.put b (i, j) p).isSome = true) ∧
    (∀ a b : relative.Coord, a.1 < 9 → a.2 < 9 → b.1 < 9 → b.2 < 9 →
      (relative.distance a b).isSome = true) ∧
    (∀ a b : absolute.Coord, (absolute.distance a b).isSome = true) := by
  refine ⟨?_, ?_, ?_, ?_, ?_⟩
  · intro b i j hi hj
    unfold relative.Board.peek
    rw [dif_pos (⟨hi, hj⟩ : (i, j).1 < 9 ∧ (i, j).2 < 9)]
    rfl
  · intro b i j hi hj
    unfold relative.Board.pop
    rw [dif_pos (⟨hi, hj⟩ : (i, j).1 < 9 ∧ (i, j).2 < 9)]
    rfl
  · intro b p i j hi hj
    unfold relative.Board.put
    rw [if_pos (⟨hi, hj⟩ : (i, j).1 < 9 ∧ (i, j).2 < 9)]
    rfl
  · intro a b ha1 ha2 hb1 hb2
    rw [perspective.distance_eq_of_lt a.1 a.2 b.1 b.2
      (lt_trans ha1 (by norm_num)) (lt_trans hb1 (by norm_num))
      (lt_trans ha2 (by norm_num)) (lt_trans hb2 (by norm_num))]
    rfl
  · intro a b
    unfold absolute.distance
    rw [perspective.rel_distance_formula a b perspective.Perspective.IaIsDownAndPointsUpward]
    rfl

/-- Witness for C7 at concrete in-range inputs. -/
theorem claim_C7_witness :
    (relative.Board.peek (fun _ _ => none) (3, 4)).isSome = true ∧
    (relative.distance (3, 4) (8, 0)).isSome = true :=
  ⟨claim_C7.1 (fun _ _ => none) 3 4 (by decide) (by decide),
   claim_C7.2.2.2.1 (3, 4) (8, 0) (by decide) (by decide) (by decide) (by decide)⟩

/-- Example relative field for claim C2: one upward pawn at `[6,0]`. -/
def exC2Field : relative.Field :=
  { current_board := fun i j =>
      if i.val = 6 ∧ j.val = 0 then
        some (relative.Piece.NonTam2Piece Color.Kok1 Profession.Kauk2 relative.Side.Upward)
      else none,
    hop1zuo1of_upward := [],
    hop1zuo1of_downward := [] }

/-- Claim C2 fails on the relative implementation: moving the pawn from
`[6,0]` to the empty square `[5,0]` succeeds, but the resulting board
still holds the pawn at the source square (the implementation never clears
`src`), duplicating the piece instead of moving it. -/
theorem claim_C2_bug :
    (exC2Field.move_nontam_piece_from_src_to_dest_while_taking_opponent_piece_if_needed
        (6, 0) (5, 0) relative.Side.Upward).map (fun r =>
      r.toOption.map (fun f2 =>
        (relative.relAt f2.current_board (6, 0), relative.relAt f2.current_board (5, 0)))) =
      some (some
        (some (relative.Piece.NonTam2Piece Color.Kok1 Profession.Kauk2 relative.Side.Upward),
         some (relative.Piece.NonTam2Piece Color.Kok1 Profession.Kauk2
           relative.Side.Upward))) := by
  decide

/-- Example absolute field for claim C3: one IA-side pawn at AI-K. -/
def exC3Field : absolute.Field :=
  { board := fun c =>
      if c = (absolute.Row.AI, absolute.Column.K) then
        some (absolute.Piece.NonTam2Piece Color.Kok1 Profession.Kauk2 AbsoluteSide.IASide)
      else none,
    a_side_hop1zuo1 := [],
    ia_side_hop1zuo1 := [] }

/-- Claim C3 fails on the code: applying Operation A to an absolute field
and applying it to the perspective-transformed relative field (with the
transformed coordinates and side) both succeed, yet the relative result
differs from the transform of the absolute result, because the relative
implementation never clears the source square. -/
theorem claim_C3_bug :
    ((exC3Field.move_nontam_piece_from_src_to_dest_while_taking_opponent_piece_if_needed
        (absolute.Row.AI, absolute.Column.K) (absolute.Row.Y, absolute.Column.K)
        AbsoluteSide.IASide).toOption.map (fun fa =>
          perspective.to_relative_field fa
            perspective.Perspective.IaIsDownAndPointsUpward)).isSome = true ∧
    (((perspective.to_relative_field exC3Field
        perspective.Perspective.IaIsDownAndPointsUpward).move_nontam_piece_from_src_to_dest_while_taking_opponent_piece_if_needed
        (perspective.to_relative_coord (absolute.Row.AI, absolute.Column.K)
          perspective.Perspective.IaIsDownAndPointsUpward)
        (perspective.to_relative_coord (absolute.Row.Y, absolute.Column.K)
          perspective.Perspective.IaIsDownAndPointsUpward)
        (perspective.to_relative_side AbsoluteSide.IASide
          perspective.Perspective.IaIsDownAndPointsUpward)).bind
      (fun r => r.toOption)).isSome = true ∧
    ((exC3Field.move_nontam_piece_from_src_to_dest_while_taking_opponent_piece_if_needed
        (absolute.Row.AI, absolute.Column.K) (absolute.Row.Y, absolute.Column.K)
        AbsoluteSide.IASide).toOption.map (fun fa =>
          perspective.to_relative_field fa
            perspective.Perspective.IaIsDownAndPointsUpward)) ≠
    (((perspective.to_relative_field exC3Field
        perspective.Perspective.IaIsDownAndPointsUpward).move_nontam_piece_from_src_to_dest_while_taking_opponent_piece_if_needed
        (perspective.to_relative_coord (absolute.Row.AI, absolute.Column.K)
          perspective.Perspective.IaIsDownAndPointsUpward)
        (perspective.to_relative_coord (absolute.Row.Y, absolute.Column.K)
          perspective.Perspective.IaIsDownAndPointsUpward)
        (perspective.to_relative_side AbsoluteSide.IASide
          perspective.Perspective.IaIsDownAndPointsUpward)).bind
      (fun r => r.toOption)) := by
  refine ⟨by decide, by decide, by decide⟩
